import Mathlib

/-!
Verification development for the Collate ticket-resolution system.

The repository has two implementations of the same pipeline:
- `refactor.py`: regex extraction from local ticket files, CSV-backed
  resolvers guarded by a TTL cache (`SimpleCache`), and `process_tickets`
  which groups hostnames by support group (with global deduplication in
  batch mode).
- `main.py`: LLM-based extraction, Google-Sheets-backed resolvers with no
  cache, `collate_ticket_results` for one ticket and a `--batch` loop that
  merges per-ticket results.

This file gives a shallow embedding of both. External effects are made
explicit: time is an `Int` parameter, the backing tables are an
`Except String CsvTable` value (`Except.error` models a failed read such
as a missing file), the LLM extraction result is an
`Except String ParsedTicket` value, and each resolver call additionally
reports whether it read its source so that caching and memoization claims
can be stated as facts about traces.
-/

namespace Collate

/-! ## Time-bounded cache (`SimpleCache` in refactor.py)

Entries are `(key, value, storedAt)` triples; `get` and `set` mirror the
Python methods, with `now` passed explicitly instead of `datetime.now()`.
Values stored by the resolvers are Python dicts, but the Python cache can
hold `None` as well; a cache of type `SimpleCache (Option β)` models this,
with `none` standing for a stored Python `None`.  `pyGet` is what a Python
caller observes: the stored value on a fresh hit, `None` otherwise.
`set` keeps exactly one entry per key, like a dict assignment; the order
of entries differs from dict insertion order, which is unobservable here
because every cache observation is by key. -/

structure SimpleCache (α : Type) where
  entries : List (String × α × Int)
  ttl : Int
deriving DecidableEq

def SimpleCache.lookup {α : Type} (c : SimpleCache α) (k : String) : Option (String × α × Int) :=
  c.entries.find? (fun e => decide (e.1 = k))

def SimpleCache.get {α : Type} (c : SimpleCache α) (k : String) (now : Int) :
    Option α × SimpleCache α :=
  match c.lookup k with
  | some e =>
      if now - e.2.2 < c.ttl then (some e.2.1, c)
      else (none, { c with entries := c.entries.filter (fun e2 => !(decide (e2.1 = k))) })
  | none => (none, c)

def SimpleCache.set {α : Type} (c : SimpleCache α) (k : String) (v : α) (now : Int) :
    SimpleCache α :=
  { c with entries := (k, v, now) :: c.entries.filter (fun e2 => !(decide (e2.1 = k))) }

def SimpleCache.clear {α : Type} (c : SimpleCache α) : SimpleCache α :=
  { c with entries := [] }

def SimpleCache.pyGet {β : Type} (c : SimpleCache (Option β)) (k : String) (now : Int) :
    Option β × SimpleCache (Option β) :=
  let r := c.get k now
  (r.1.join, r.2)

def SimpleCache.empty {α : Type} (ttl : Int) : SimpleCache α := ⟨[], ttl⟩

/-! ## String helpers mirroring Python `str.strip` and `str.upper`

Whitespace is the ASCII whitespace set Python uses for `str.strip` and
`\s` in patterns (the embedding models ASCII text). -/

def isWs (c : Char) : Bool :=
  c = ' ' || c = '\t' || c = '\n' || c = '\r' || c = '\x0b' || c = '\x0c'

def stripChars (l : List Char) : List Char :=
  ((l.dropWhile isWs).reverse.dropWhile isWs).reverse

def pyStrip (s : String) : String := String.mk (stripChars s.data)

def pyUpper (s : String) : String := String.mk (s.data.map Char.toUpper)

def canon (s : String) : String := pyUpper (pyStrip s)

/-! ## CSV-backed support-group resolver (`get_support_group` in refactor.py)

A `CsvTable` is the dataframe produced by `pd.read_csv`: a column count and
the data rows (the header is already consumed), where a cell is `none` for
a NaN.  The whole read is an `Except String CsvTable`: `Except.error e`
models a read that raised (missing file, malformed content), with `e` the
resulting error message.  The resolver returns the structured result, the
cache after the call, and a `Bool` recording whether the source was read. -/

structure CsvTable where
  ncols : Nat
  rows : List (List (Option String))
deriving DecidableEq

def cellMatches (cell : Option String) (key : String) : Bool :=
  match cell with
  | some s => decide (canon s = canon key)
  | none => false

structure SGResult where
  hostname : String
  support_group : Option String
  found : Bool
  error : Option String
deriving DecidableEq

structure SGEnv where
  cacheEnabled : Bool
  source : Except String CsvTable
  hcol : Nat
  scol : Nat

def sgKey (hostname : String) : String := "support_group:" ++ hostname

def get_support_group (env : SGEnv) (hostname : String) (use_cache : Bool) (now : Int)
    (c : SimpleCache (Option SGResult)) :
    SGResult × SimpleCache (Option SGResult) × Bool :=
  let cached :=
    if use_cache && env.cacheEnabled then c.pyGet (sgKey hostname) now else (none, c)
  match cached with
  | (some res, c1) => (res, c1, false)
  | (none, c1) =>
    match env.source with
    | .error e => (⟨hostname, none, false, some e⟩, c1, true)
    | .ok tbl =>
      if tbl.ncols ≤ max env.hcol env.scol then
        (⟨hostname, none, false,
          some ("CSV file needs at least " ++ toString (max env.hcol env.scol + 1) ++
                " columns, found " ++ toString tbl.ncols ++ ".")⟩, c1, true)
      else
        match tbl.rows.find? (fun row => cellMatches (row.getD env.hcol none) hostname) with
        | some row =>
          let res : SGResult := ⟨hostname, row.getD env.scol none, true, none⟩
          (res, (if env.cacheEnabled then c1.set (sgKey hostname) (some res) now else c1), true)
        | none =>
          let res : SGResult := ⟨hostname, none, false, none⟩
          (res, (if env.cacheEnabled then c1.set (sgKey hostname) (some res) now else c1), true)

/-! ## CSV-backed contact resolver (`get_app_owners` in refactor.py)

Same protocol as `get_support_group`, keyed by `app_owners:` and reading
four designated columns.  `contacts = none` models the empty Python dict
returned on the not-found and failure paths. -/

structure Contacts where
  app_owner : Option String
  email_distros : Option String
  individual_contacts : Option String
  notes : Option String
deriving DecidableEq

structure AOResult where
  support_group : String
  contacts : Option Contacts
  found : Bool
  error : Option String
deriving DecidableEq

structure AOEnv where
  cacheEnabled : Bool
  source : Except String CsvTable
  sgcol : Nat
  ecol : Nat
  icol : Nat
  ncol : Nat

def aoKey (support_group : String) : String := "app_owners:" ++ support_group

def AOEnv.maxCol (env : AOEnv) : Nat := max env.sgcol (max env.ecol (max env.icol env.ncol))

def get_app_owners (env : AOEnv) (support_group : String) (use_cache : Bool) (now : Int)
    (c : SimpleCache (Option AOResult)) :
    AOResult × SimpleCache (Option AOResult) × Bool :=
  let cached :=
    if use_cache && env.cacheEnabled then c.pyGet (aoKey support_group) now else (none, c)
  match cached with
  | (some res, c1) => (res, c1, false)
  | (none, c1) =>
    match env.source with
    | .error e => (⟨support_group, none, false, some e⟩, c1, true)
    | .ok tbl =>
      if tbl.ncols ≤ env.maxCol then
        (⟨support_group, none, false,
          some ("CSV file needs at least " ++ toString (env.maxCol + 1) ++
                " columns, found " ++ toString tbl.ncols ++ ".")⟩, c1, true)
      else
        match tbl.rows.find? (fun row => cellMatches (row.getD env.sgcol none) support_group) with
        | some row =>
          let res : AOResult :=
            ⟨support_group,
             some ⟨row.getD env.sgcol none, row.getD env.ecol none,
                   row.getD env.icol none, row.getD env.ncol none⟩, true, none⟩
          (res, (if env.cacheEnabled then c1.set (aoKey support_group) (some res) now else c1),
           true)
        | none =>
          let res : AOResult := ⟨support_group, none, false, none⟩
          (res, (if env.cacheEnabled then c1.set (aoKey support_group) (some res) now else c1),
           true)

/-! ## Pattern-based hostname extractor (`parse_ticket` in refactor.py)

The Python code runs `re.findall` with the pattern
`Server:\s*([^\s\n]+)` and `re.IGNORECASE` over the ticket text, strips
each capture, drops empty captures, and deduplicates keeping the first
occurrence (`dict.fromkeys`).  `findMatchesFuel` is the left-to-right,
non-overlapping scan of the regex engine: at each position it tries to
match the literal marker `Server:` case-insensitively, then greedily skips
whitespace, then captures a maximal nonempty run of non-whitespace
characters; on success scanning resumes after the capture, on failure at
the next character.  The fuel argument equals the text length at the top
call and never runs out (each step consumes at least one character). -/

def lowerChar (c : Char) : Char := c.toLower

def startsWithCI : List Char → List Char → Bool
  | [], _ => true
  | _ :: _, [] => false
  | p :: ps, c :: cs => (lowerChar p = lowerChar c) && startsWithCI ps cs

def serverMarker : List Char := ['S', 'e', 'r', 'v', 'e', 'r', ':']

def matchAt (l : List Char) : Option (List Char × List Char) :=
  if startsWithCI serverMarker l then
    let afterMarker := l.drop serverMarker.length
    let afterWs := afterMarker.dropWhile isWs
    let tok := afterWs.takeWhile (fun c => !isWs c)
    if tok.isEmpty then none else some (tok, afterWs.drop tok.length)
  else none

def findMatchesFuel : Nat → List Char → List (List Char)
  | 0, _ => []
  | _, [] => []
  | fuel + 1, c :: cs =>
    match matchAt (c :: cs) with
    | some (tok, rest) => tok :: findMatchesFuel fuel rest
    | none => findMatchesFuel fuel cs

def findMatches (l : List Char) : List (List Char) := findMatchesFuel l.length l

/-- First-occurrence deduplication, as performed by `list(dict.fromkeys(...))`:
the first occurrence of each string is kept, every later occurrence is
dropped.  The fuel argument equals the list length at the top call and
never runs out (filtering only shortens the list). -/
def dedupFirstFuel : Nat → List String → List String
  | 0, _ => []
  | _, [] => []
  | fuel + 1, x :: xs => x :: dedupFirstFuel fuel (xs.filter (fun y => !(decide (y = x))))

def dedupFirst (l : List String) : List String := dedupFirstFuel l.length l

/-- The cleaned match list of `parse_ticket`: all regex captures in order of
appearance, stripped, with empty captures dropped (before deduplication). -/
def cleanedMatches (text : List Char) : List String :=
  ((findMatches text).map (fun t => pyStrip (String.mk t))).filter (fun s => !(decide (s = "")))

/-- Hostname extraction of `parse_ticket` on the successfully read ticket
text: the early return for an all-whitespace description, then the cleaned
and first-occurrence-deduplicated regex captures. -/
def extract_hostnames (text : List Char) : List String :=
  if stripChars text = [] then []
  else dedupFirst (cleanedMatches text)

/-! ## Grouping loop of `process_tickets` (refactor.py)

The per-hostname loop resolves each hostname to a support group, collects
unresolved hostnames in `not_found`, creates a group entry (fetching the
contact bundle) the first time a support group is seen, and appends the
hostname to its group.  The two resolvers are passed as pure functions of
the hostname and support group; `sgTrace` and `aoTrace` record, in order,
the arguments of every `get_support_group` and `get_app_owners` call the
loop makes.  A group key is the `support_group` value of the lookup
result, which is `none` when the CSV cell was NaN. -/

structure GroupData where
  hostnames : List String
  support_group_name : Option String
  contacts : Option Contacts
  contact_lookup_successful : Bool
deriving DecidableEq

structure GState where
  groups : List (Option String × GroupData)
  not_found : List String
  sgTrace : List String
  aoTrace : List (Option String)
deriving DecidableEq

def initG : GState := ⟨[], [], [], []⟩

def hasGroup (gs : List (Option String × GroupData)) (k : Option String) : Bool :=
  (gs.find? (fun p => decide (p.1 = k))).isSome

def appendToGroup (gs : List (Option String × GroupData)) (k : Option String) (h : String) :
    List (Option String × GroupData) :=
  gs.map (fun p =>
    if p.1 = k then (p.1, { p.2 with hostnames := p.2.hostnames ++ [h] }) else p)

def buildStep (f : String → SGResult) (g : Option String → AOResult)
    (st : GState) (hostname : String) : GState :=
  let info := f hostname
  let st1 := { st with sgTrace := st.sgTrace ++ [hostname] }
  if info.found = false then
    { st1 with not_found := st1.not_found ++ [hostname] }
  else
    let sg := info.support_group
    let st2 :=
      if hasGroup st1.groups sg then st1
      else
        let owner := g sg
        { st1 with
          groups := st1.groups ++
            [(sg, ⟨[], sg, (if owner.found then owner.contacts else none), owner.found⟩)],
          aoTrace := st1.aoTrace ++ [sg] }
    { st2 with groups := appendToGroup st2.groups sg hostname }

def buildGroupsAux (f : String → SGResult) (g : Option String → AOResult) :
    GState → List String → GState
  | st, [] => st
  | st, h :: hs => buildGroupsAux f g (buildStep f g st h) hs

/-- Hostname list of the group keyed `k` (empty when no such group). -/
def groupHostnames (gs : List (Option String × GroupData)) (k : Option String) : List String :=
  match gs.find? (fun p => decide (p.1 = k)) with
  | some p => p.2.hostnames
  | none => []

/-- All hostnames across all groups, in group insertion order. -/
def allGroupHostnames (gs : List (Option String × GroupData)) : List String :=
  (gs.map (fun p => p.2.hostnames)).flatten

/-! ## `process_tickets` (refactor.py)

File reading and glob expansion are out of scope; the input is the list of
`(file path, parse_ticket result)` pairs the collection loop would
produce.  `parse_ticket` never raises (it catches its own exceptions and
returns an error field), so every listed file lands in `processed_files`.
In batch mode hostnames are deduplicated globally before resolution and
the result gains the file-level fields; in single mode the hostname list
is used as-is and, on the empty path, a parse error replaces the error
mapping with the text after the first `": "` of the first file error
(`file_errors[0].split(": ", 1)[1]`; `afterFirstSep` returns `none` when
the separator is absent, a case the Python code cannot reach because it
builds every file error with `f"{file_path}: {error}"`). -/

structure ParseResult where
  hostnames : List String
  error : Option String
deriving DecidableEq

structure PTSummary where
  total_hostnames : Nat
  grouped_into : Nat
  not_found : Nat
  files_processed : Option Nat
deriving DecidableEq

structure PTResult where
  status : String
  message : Option String
  summary : Option PTSummary
  results : List (Option String × GroupData)
  hostnames_not_found : List String
  single_error : Option String
  file_errors : Option (List String)
  files_processed : Option (List String)
  sgTrace : List String
  aoTrace : List (Option String)
deriving DecidableEq

def allHostnames (files : List (String × ParseResult)) : List String :=
  (files.map (fun pr => pr.2.hostnames)).flatten

def fileErrors (files : List (String × ParseResult)) : List String :=
  files.filterMap (fun pr => pr.2.error.map (fun e => pr.1 ++ ": " ++ e))

def afterFirstSep (sep : List Char) : List Char → Option (List Char)
  | [] => none
  | c :: cs =>
    if sep.isPrefixOf (c :: cs) then some ((c :: cs).drop sep.length)
    else afterFirstSep sep cs

def process_tickets (f : String → SGResult) (g : Option String → AOResult)
    (files : List (String × ParseResult)) (is_batch : Bool) : PTResult :=
  let all := allHostnames files
  let processed := files.map Prod.fst
  let ferrs := fileErrors files
  let unique := if is_batch then dedupFirst all else all
  if unique = [] then
    { status := "success",
      message := some ("No hostnames found in ticket" ++ (if is_batch then "s" else "")),
      summary := none,
      results := [],
      hostnames_not_found := [],
      single_error :=
        if is_batch then none
        else (ferrs.head?.bind (fun s => afterFirstSep (':' :: ' ' :: []) s.data)).map
          (fun cs => String.mk cs),
      file_errors := if is_batch then some ferrs else none,
      files_processed := if is_batch then some processed else none,
      sgTrace := [],
      aoTrace := [] }
  else
    let st := buildGroupsAux f g initG unique
    { status := "success",
      message := none,
      summary := some ⟨unique.length, st.groups.length, st.not_found.length,
        if is_batch then some processed.length else none⟩,
      results := st.groups,
      hostnames_not_found := st.not_found,
      single_error := none,
      file_errors := if is_batch then some ferrs else none,
      files_processed := if is_batch then some processed else none,
      sgTrace := st.sgTrace,
      aoTrace := st.aoTrace }

/-! ## Coverage percentage (main.py)

`int(round(x))` where `x = successful_lookups / total_hostnames * 100` if
`total_hostnames > 0` else `0`.  The arithmetic is modelled exactly over
the rationals; Python `round` is round-half-to-even. -/

def pyRound (x : ℚ) : ℤ :=
  let f := ⌊x⌋
  let r := x - (f : ℚ)
  if r < 1 / 2 then f
  else if 1 / 2 < r then f + 1
  else if f % 2 = 0 then f else f + 1

def coverage (s t : Nat) : ℤ :=
  if 0 < t then pyRound ((s : ℚ) / (t : ℚ) * 100) else 0

/-! ## `collate_ticket_results` (main.py)

The extraction call is modelled as its outcome: `Except.error e` when the
API call failed or its output did not parse, `Except.ok` with the
structured ticket otherwise (a missing `hosts` key is modelled as an empty
`hosts` list, which takes the same branch).  The two sheet-backed
resolvers are pure functions of their argument; main.py has no cache.
`get_app_owners` is called unconditionally for every hostname whose
support group was found — the group entry only keeps the bundle fetched
when the group was first created, and `sgTrace` / `aoTrace` record every
resolver call in order. -/

structure Host where
  hostname : String
  confidence : Option String
  context : Option String
deriving DecidableEq

structure ParsedTicket where
  hosts : List Host
  issue_type : Option String
deriving DecidableEq

structure MSGInfo where
  support_group : Option String
  found : Bool
  error : Option String
deriving DecidableEq

structure MAOInfo where
  app_owners : Option String
  email_distros : Option String
  individual_contacts : Option String
  found : Bool
  error : Option String
  message : Option String
deriving DecidableEq

structure HostDetail where
  confidence : String
  context : String
  support_group_found : Bool
  app_owners_found : Bool
deriving DecidableEq

structure MGroup where
  support_group : Option String
  hostnames : List String
  email_distros : Option String
  individual_contacts : Option String
  issue_types : List String
  hostname_details : List (String × HostDetail)
deriving DecidableEq

structure MErrors where
  hostnames_not_found : List String
  support_groups_not_found : List (Option String)
  other_errors : List String
deriving DecidableEq

structure MSummary where
  total_hostnames : Nat
  total_support_groups : Nat
  successful_lookups : Nat
  failed_lookups : Nat
  coverage_percentage : Option ℤ
deriving DecidableEq

structure MResult where
  summary : MSummary
  groups : List (Option String × MGroup)
  errors : MErrors
  sgTrace : List String
  aoTrace : List (Option String)
deriving DecidableEq

def pyShowOpt : Option String → String
  | some s => s
  | none => "None"

def upsertDetail (l : List (String × HostDetail)) (k : String) (v : HostDetail) :
    List (String × HostDetail) :=
  if (l.find? (fun p => decide (p.1 = k))).isSome then
    l.map (fun p => if p.1 = k then (k, v) else p)
  else l ++ [(k, v)]

def addHostToMGroup (gr : MGroup) (hostname issue_type : String) (host : Host)
    (sgFound aoFound : Bool) : MGroup :=
  { gr with
    hostnames := gr.hostnames ++ [hostname],
    issue_types :=
      if issue_type ∈ gr.issue_types then gr.issue_types
      else gr.issue_types ++ [issue_type],
    hostname_details := upsertDetail gr.hostname_details hostname
      ⟨host.confidence.getD "unknown", host.context.getD "", sgFound, aoFound⟩ }

structure CState where
  groups : List (Option String × MGroup)
  hostnames_not_found : List String
  support_groups_not_found : List (Option String)
  other_errors : List String
  sgTrace : List String
  aoTrace : List (Option String)
deriving DecidableEq

def initC : CState := ⟨[], [], [], [], [], []⟩

def collateStep (sgRes : String → MSGInfo) (aoRes : Option String → MAOInfo)
    (issue_type : String) (st : CState) (host : Host) : CState :=
  let hostname := host.hostname
  if hostname = "" then st
  else
    let info := sgRes hostname
    let st1 := { st with sgTrace := st.sgTrace ++ [hostname] }
    if info.found = false then
      let st2 := { st1 with hostnames_not_found := st1.hostnames_not_found ++ [hostname] }
      match info.error with
      | some e =>
        { st2 with other_errors :=
            st2.other_errors ++ ["Error looking up " ++ hostname ++ ": " ++ e] }
      | none => st2
    else
      let sg := info.support_group
      let owner := aoRes sg
      let st2 := { st1 with aoTrace := st1.aoTrace ++ [sg] }
      let st3 :=
        if owner.found = false then
          let s2 := { st2 with
            support_groups_not_found := st2.support_groups_not_found ++ [sg] }
          match owner.error with
          | some e =>
            { s2 with other_errors :=
                s2.other_errors ++
                  ["Error looking up app owners for " ++ pyShowOpt sg ++ ": " ++ e] }
          | none => s2
        else st2
      let st4 :=
        if (st3.groups.find? (fun p => decide (p.1 = sg))).isSome then st3
        else
          { st3 with groups := st3.groups ++
              [(sg, ⟨sg, [], owner.email_distros, owner.individual_contacts, [], []⟩)] }
      { st4 with groups := st4.groups.map (fun p =>
          if p.1 = sg then
            (p.1, addHostToMGroup p.2 hostname issue_type host info.found owner.found)
          else p) }

def collate_ticket_results (sgRes : String → MSGInfo) (aoRes : Option String → MAOInfo)
    (parsed : Except String ParsedTicket) : MResult :=
  match parsed with
  | .error e =>
    { summary := ⟨0, 0, 0, 0, none⟩,
      groups := [],
      errors := ⟨[], [], ["Ticket parsing failed: " ++ e]⟩,
      sgTrace := [],
      aoTrace := [] }
  | .ok p =>
    if p.hosts = [] then
      { summary := ⟨0, 0, 0, 0, none⟩,
        groups := [],
        errors := ⟨[], [], ["No hostnames found in ticket"]⟩,
        sgTrace := [],
        aoTrace := [] }
    else
      let it := p.issue_type.getD "unknown"
      let st := p.hosts.foldl (collateStep sgRes aoRes it) initC
      let total := p.hosts.length
      let succ := (st.groups.map (fun q => q.2.hostnames.length)).sum
      let failed := st.hostnames_not_found.length
      { summary := ⟨total, st.groups.length, succ, failed, some (coverage succ total)⟩,
        groups := st.groups,
        errors := ⟨st.hostnames_not_found, st.support_groups_not_found, st.other_errors⟩,
        sgTrace := st.sgTrace,
        aoTrace := st.aoTrace }

/-! ## `--batch` aggregation loop (main.py)

File expansion and reading are out of scope; the input is the list of
per-ticket extraction outcomes in file order.  Each ticket is collated
independently (there is no cross-ticket hostname deduplication), the
per-ticket counts are summed, groups are merged by key (hostname lists
concatenated, issue types unioned, an existing bundle kept), error lists
are concatenated, and a batch coverage percentage is computed at the end. -/

def mergeIssueTypes (a b : List String) : List String :=
  b.foldl (fun acc it => if it ∈ acc then acc else acc ++ [it]) a

def mergeDetails (a b : List (String × HostDetail)) : List (String × HostDetail) :=
  b.foldl (fun acc kv => upsertDetail acc kv.1 kv.2) a

def mergeMGroup (old new : MGroup) : MGroup :=
  { old with
    hostnames := old.hostnames ++ new.hostnames,
    hostname_details := mergeDetails old.hostname_details new.hostname_details,
    issue_types := mergeIssueTypes old.issue_types new.issue_types }

def mergeGroups (acc : List (Option String × MGroup)) (gs : List (Option String × MGroup)) :
    List (Option String × MGroup) :=
  gs.foldl (fun a kv =>
    if (a.find? (fun p => decide (p.1 = kv.1))).isSome then
      a.map (fun p => if p.1 = kv.1 then (p.1, mergeMGroup p.2 kv.2) else p)
    else a ++ [kv]) acc

structure BatchAgg where
  all_groups : List (Option String × MGroup)
  hostnames_not_found : List String
  support_groups_not_found : List (Option String)
  other_errors : List String
  total_hostnames : Nat
  successful_lookups : Nat
  failed_lookups : Nat
  sgTrace : List String
  aoTrace : List (Option String)
deriving DecidableEq

def initBatch : BatchAgg := ⟨[], [], [], [], 0, 0, 0, [], []⟩

def mainBatchStep (sgRes : String → MSGInfo) (aoRes : Option String → MAOInfo)
    (agg : BatchAgg) (parsed : Except String ParsedTicket) : BatchAgg :=
  let r := collate_ticket_results sgRes aoRes parsed
  { all_groups := mergeGroups agg.all_groups r.groups,
    hostnames_not_found := agg.hostnames_not_found ++ r.errors.hostnames_not_found,
    support_groups_not_found :=
      agg.support_groups_not_found ++ r.errors.support_groups_not_found,
    other_errors := agg.other_errors ++ r.errors.other_errors,
    total_hostnames := agg.total_hostnames + r.summary.total_hostnames,
    successful_lookups := agg.successful_lookups + r.summary.successful_lookups,
    failed_lookups := agg.failed_lookups + r.summary.failed_lookups,
    sgTrace := agg.sgTrace ++ r.sgTrace,
    aoTrace := agg.aoTrace ++ r.aoTrace }

structure BatchSummary where
  total_hostnames : Nat
  total_support_groups : Nat
  successful_lookups : Nat
  failed_lookups : Nat
  coverage_percentage : ℤ
deriving DecidableEq

structure BatchResult where
  summary : BatchSummary
  groups : List (Option String × MGroup)
  hostnames_not_found : List String
  support_groups_not_found : List (Option String)
  other_errors : List String
  sgTrace : List String
  aoTrace : List (Option String)
deriving DecidableEq

def mainBatch (sgRes : String → MSGInfo) (aoRes : Option String → MAOInfo)
    (tickets : List (Except String ParsedTicket)) : BatchResult :=
  let agg := tickets.foldl (mainBatchStep sgRes aoRes) initBatch
  { summary := ⟨agg.total_hostnames, agg.all_groups.length, agg.successful_lookups,
      agg.failed_lookups, coverage agg.successful_lookups agg.total_hostnames⟩,
    groups := agg.all_groups,
    hostnames_not_found := agg.hostnames_not_found,
    support_groups_not_found := agg.support_groups_not_found,
    other_errors := agg.other_errors,
    sgTrace := agg.sgTrace,
    aoTrace := agg.aoTrace }

/-! ## Cache lemmas and claims C5, C10, C1 -/

theorem lookup_filter_ne {α : Type} (l : List (String × α × Int)) (k : String) :
    (l.filter (fun e2 => !(decide (e2.1 = k)))).find? (fun e => decide (e.1 = k)) = none := by
  rw [List.find?_eq_none]
  intro x hx
  have hmem := List.of_mem_filter hx
  simp only [Bool.not_eq_true', decide_eq_false_iff_not] at hmem
  simpa using hmem

/-- C5: a cache read returns the stored value exactly when the elapsed time
since storage is strictly below the TTL; a stale entry behaves as absent
and is removed by the read; a read of an absent key changes nothing; and a
write always overwrites the entry, resetting its timestamp to the current
time. -/
theorem C5_cache_get_set (α : Type) (c : SimpleCache α) (k : String) (v : α)
    (ts now now2 : Int) :
    (c.lookup k = some (k, v, ts) →
      ((now - ts < c.ttl → (c.get k now).1 = some v ∧ (c.get k now).2 = c) ∧
       (¬ now - ts < c.ttl →
          (c.get k now).1 = none ∧ ((c.get k now).2).lookup k = none)))
    ∧ (c.lookup k = none → c.get k now = (none, c))
    ∧ (c.set k v now2).lookup k = some (k, v, now2) := by
  refine ⟨fun hl => ⟨fun hfresh => ?_, fun hstale => ?_⟩, fun hl => ?_, ?_⟩
  · simp [SimpleCache.get, hl, hfresh]
  · have hg : c.get k now =
        (none, { c with entries := c.entries.filter (fun e2 => !(decide (e2.1 = k))) }) := by
      simp [SimpleCache.get, hl, hstale]
    rw [hg]
    exact ⟨rfl, lookup_filter_ne c.entries k⟩
  · simp [SimpleCache.get, hl]
  · simp [SimpleCache.set, SimpleCache.lookup, List.find?]

/-- Closed witness for C5 on a concrete one-entry cache with TTL 10: a read
at time 3 hits, a read at time 12 misses and evicts, a read of a missing
key is inert, and a write resets the timestamp. -/
theorem C5_cache_get_set_witness :
    ((SimpleCache.mk [("a", (1 : Nat), 0)] 10).get "a" 3).1 = some 1 ∧
    ((SimpleCache.mk [("a", (1 : Nat), 0)] 10).get "a" 12).1 = none ∧
    (((SimpleCache.mk [("a", (1 : Nat), 0)] 10).get "a" 12).2).lookup "a" = none ∧
    (SimpleCache.mk [("a", (1 : Nat), 0)] 10).get "b" 3 =
      (none, SimpleCache.mk [("a", (1 : Nat), 0)] 10) ∧
    ((SimpleCache.mk [("a", (1 : Nat), 0)] 10).set "a" 2 7).lookup "a" = some ("a", 2, 7) := by
  have h := C5_cache_get_set Nat (SimpleCache.mk [("a", (1 : Nat), 0)] 10) "a" 1 0 3 7
  have h12 := C5_cache_get_set Nat (SimpleCache.mk [("a", (1 : Nat), 0)] 10) "a" 1 0 12 7
  have hb := C5_cache_get_set Nat (SimpleCache.mk [("a", (1 : Nat), 0)] 10) "b" 1 0 3 7
  have h2 := C5_cache_get_set Nat (SimpleCache.mk [("a", (1 : Nat), 0)] 10) "a" 2 0 3 7
  refine ⟨((h.1 (by decide)).1 (by decide)).1, ((h12.1 (by decide)).2 (by decide)).1,
    ((h12.1 (by decide)).2 (by decide)).2, hb.2.1 (by decide), h2.2.2⟩

theorem gsg_reads_source_of_cache_miss (env : SGEnv) (h : String) (use : Bool) (now : Int)
    (c : SimpleCache (Option SGResult))
    (hmiss : ((if use && env.cacheEnabled then c.pyGet (sgKey h) now else (none, c)).1 :
      Option SGResult) = none) :
    (get_support_group env h use now c).2.2 = true := by
  unfold get_support_group
  rcases hc : (if use && env.cacheEnabled then c.pyGet (sgKey h) now else (none, c)) with ⟨r, c1⟩
  rw [hc] at hmiss
  simp only at hmiss
  subst hmiss
  rcases hs : env.source with e | tbl
  · simp [hc, hs]
  · simp only [hc, hs]
    split
    · rfl
    · split <;> rfl

/-- C10: `SimpleCache.get` returns `None` both on a miss and when `None`
itself was stored, so a stored `None` is observationally a miss; since
`get_support_group` guards its cache hit with `is not None`, a fresh cache
entry whose stored value is `None` still causes the source to be read. -/
theorem C10_cached_none_is_miss (β : Type) (c : SimpleCache (Option β)) (k : String)
    (now now2 : Int) (env : SGEnv) (h : String) (ttl t1 t2 : Int) :
    (((c.set k none now).pyGet k now2).1 = none)
    ∧ (c.lookup k = none → (c.pyGet k now).1 = none)
    ∧ (t2 - t1 < ttl →
        (get_support_group env h true t2
          ((SimpleCache.empty ttl).set (sgKey h) none t1)).2.2 = true) := by
  refine ⟨?_, fun hl => ?_, fun hfresh => ?_⟩
  · have hset : ((c.set k none now).lookup k) = some (k, none, now) := by
      simp [SimpleCache.set, SimpleCache.lookup, List.find?]
    by_cases hfresh : now2 - now < (c.set k none now).ttl
    · have hg : (c.set k none now).get k now2 = (some none, c.set k none now) := by
        simp [SimpleCache.get, hset, hfresh]
      simp [SimpleCache.pyGet, hg]
    · have hg : ((c.set k none now).get k now2).1 = none := by
        simp [SimpleCache.get, hset, hfresh]
      simp [SimpleCache.pyGet, hg]
  · simp [SimpleCache.pyGet, SimpleCache.get, hl]
  · apply gsg_reads_source_of_cache_miss
    rcases henb : env.cacheEnabled with _ | _
    · simp [henb]
    · simp [henb, SimpleCache.pyGet, SimpleCache.get, SimpleCache.set, SimpleCache.empty,
        SimpleCache.lookup, List.find?, hfresh]

/-- Closed witness for C10: storing `None` under the support-group key of
`WEB01` at time 0 in an empty cache with TTL 3600, a resolve at time 5
still reads the source. -/
theorem C10_cached_none_is_miss_witness :
    (((SimpleCache.empty 3600).set "k" (none : Option Nat) 0).pyGet "k" 5).1 = none ∧
    (get_support_group ⟨true, .error "gone", 0, 1⟩ "WEB01" true 5
      ((SimpleCache.empty 3600).set (sgKey "WEB01") none 0)).2.2 = true := by
  have h := C10_cached_none_is_miss Nat (SimpleCache.empty 3600) "k" 0 5
    ⟨true, .error "gone", 0, 1⟩ "WEB01" 3600 0 5
  exact ⟨h.1, h.2.2 (by decide)⟩

def brokenSGEnv : SGEnv := ⟨true, .error "CSV file not found: data/assets.csv", 0, 1⟩

def emptySGCache : SimpleCache (Option SGResult) := SimpleCache.empty 3600

/-- C1 counterexample: with caching enabled and the assets CSV missing, the
first resolve of `WEB01` returns a failure result but leaves the cache
unchanged, and a second resolve 10 seconds later (far inside the 3600s
TTL) reads the source again — the failure result was never stored in the
cache, contradicting the claim that a cached failure is replayed without
re-reading the source. -/
theorem C1_counterexample :
    (get_support_group brokenSGEnv "WEB01" true 0 emptySGCache).1.found = false ∧
    (get_support_group brokenSGEnv "WEB01" true 0 emptySGCache).1.error =
      some "CSV file not found: data/assets.csv" ∧
    (get_support_group brokenSGEnv "WEB01" true 0 emptySGCache).2.1 = emptySGCache ∧
    (get_support_group brokenSGEnv "WEB01" true 10
      (get_support_group brokenSGEnv "WEB01" true 0 emptySGCache).2.1).2.2 = true := by
  decide

/-- C1 (amended): on a source-access failure both resolvers return
`found = false` with a populated `error` field, but the failure result is
not cached — the cache is returned unchanged, so a second resolve of the
same key within the TTL window reads the broken source again (only found
and not-found results are cached). -/
theorem C1_failure_not_cached (env : SGEnv) (aenv : AOEnv) (h grp e e2 : String)
    (now now2 : Int) (c : SimpleCache (Option SGResult)) (c2 : SimpleCache (Option AOResult))
    (hsrc : env.source = .error e) (hmiss : c.lookup (sgKey h) = none)
    (hsrc2 : aenv.source = .error e2) (hmiss2 : c2.lookup (aoKey grp) = none) :
    (get_support_group env h true now c).1.found = false
    ∧ (get_support_group env h true now c).1.error = some e
    ∧ (get_support_group env h true now c).2.1 = c
    ∧ (get_support_group env h true now c).2.2 = true
    ∧ (get_support_group env h true now2 (get_support_group env h true now c).2.1).2.2 = true
    ∧ (get_app_owners aenv grp true now c2).1.found = false
    ∧ (get_app_owners aenv grp true now c2).1.error = some e2
    ∧ (get_app_owners aenv grp true now c2).2.1 = c2
    ∧ (get_app_owners aenv grp true now2 (get_app_owners aenv grp true now c2).2.1).2.2 =
        true := by
  have hg : ∀ t : Int, get_support_group env h true t c = (⟨h, none, false, some e⟩, c, true) := by
    intro t
    unfold get_support_group
    rcases henb : env.cacheEnabled with _ | _
    · simp [henb, hsrc]
    · simp [henb, SimpleCache.pyGet, SimpleCache.get, hmiss, hsrc]
  have ha : ∀ t : Int,
      get_app_owners aenv grp true t c2 = (⟨grp, none, false, some e2⟩, c2, true) := by
    intro t
    unfold get_app_owners
    rcases henb : aenv.cacheEnabled with _ | _
    · simp [henb, hsrc2]
    · simp [henb, SimpleCache.pyGet, SimpleCache.get, hmiss2, hsrc2]
  refine ⟨?_, ?_, ?_, ?_, ?_, ?_, ?_, ?_, ?_⟩ <;> simp [hg, ha]

def brokenAOEnv : AOEnv := ⟨true, .error "CSV file not found: data/distros.csv", 0, 1, 2, 3⟩

def emptyAOCache : SimpleCache (Option AOResult) := SimpleCache.empty 3600

/-- Closed witness for the amended C1 at a missing assets CSV and a missing
contacts CSV, hostname `WEB01` and support group `NETOPS`, times 0 and 10. -/
theorem C1_failure_not_cached_witness :
    (get_support_group brokenSGEnv "WEB01" true 0 emptySGCache).1.found = false
    ∧ (get_support_group brokenSGEnv "WEB01" true 0 emptySGCache).1.error =
        some "CSV file not found: data/assets.csv"
    ∧ (get_support_group brokenSGEnv "WEB01" true 0 emptySGCache).2.1 = emptySGCache
    ∧ (get_support_group brokenSGEnv "WEB01" true 0 emptySGCache).2.2 = true
    ∧ (get_support_group brokenSGEnv "WEB01" true 10
        (get_support_group brokenSGEnv "WEB01" true 0 emptySGCache).2.1).2.2 = true
    ∧ (get_app_owners brokenAOEnv "NETOPS" true 0 emptyAOCache).1.found = false
    ∧ (get_app_owners brokenAOEnv "NETOPS" true 0 emptyAOCache).1.error =
        some "CSV file not found: data/distros.csv"
    ∧ (get_app_owners brokenAOEnv "NETOPS" true 0 emptyAOCache).2.1 = emptyAOCache
    ∧ (get_app_owners brokenAOEnv "NETOPS" true 10
        (get_app_owners brokenAOEnv "NETOPS" true 0 emptyAOCache).2.1).2.2 = true :=
  C1_failure_not_cached brokenSGEnv brokenAOEnv "WEB01" "NETOPS"
    "CSV file not found: data/assets.csv" "CSV file not found: data/distros.csv" 0 10
    emptySGCache emptyAOCache rfl rfl rfl rfl

/-! ## Extractor lemmas and claim C6 -/

/-- Position of the first occurrence of `x` (length of the list when absent);
used to state that deduplication keeps first-occurrence order. -/
def firstIdx : List String → String → Nat
  | [], _ => 0
  | y :: ys, x => if y = x then 0 else firstIdx ys x + 1

theorem matchAt_token_spec (l tok rest : List Char) (h : matchAt l = some (tok, rest)) :
    tok ≠ [] ∧ ∀ c ∈ tok, isWs c = false := by
  simp only [matchAt] at h
  split at h
  · split at h
    · simp at h
    · rename_i hne
      injection h with h2
      injection h2 with htok hrest
      subst htok
      refine ⟨by simpa [List.isEmpty_iff] using hne, fun c hc => ?_⟩
      have := List.mem_takeWhile_imp hc
      simpa using this
  · simp at h

theorem findMatchesFuel_no_ws (fuel : Nat) :
    ∀ (l : List Char) (t : List Char), t ∈ findMatchesFuel fuel l →
      t ≠ [] ∧ ∀ c ∈ t, isWs c = false := by
  induction fuel with
  | zero => intro l t ht; simp [findMatchesFuel] at ht
  | succ fuel ih =>
    intro l t ht
    match l with
    | [] => simp [findMatchesFuel] at ht
    | c :: cs =>
      rw [findMatchesFuel] at ht
      rcases hm : matchAt (c :: cs) with _ | ⟨tok, rest⟩
      · rw [hm] at ht
        exact ih cs t ht
      · rw [hm] at ht
        rcases List.mem_cons.mp ht with h1 | h2
        · subst h1
          exact matchAt_token_spec (c :: cs) t rest hm
        · exact ih rest t h2

theorem ws_char_not_marker_head (c : Char) (h : isWs c = true) :
    lowerChar 'S' = lowerChar c → False := by
  intro hh
  have hc : c = ' ' ∨ c = '\t' ∨ c = '\n' ∨ c = '\r' ∨ c = '\x0b' ∨ c = '\x0c' := by
    simpa [isWs, or_assoc] using h
  rcases hc with h1 | h1 | h1 | h1 | h1 | h1 <;> subst h1 <;> exact absurd hh (by decide)

theorem matchAt_none_of_ws (c : Char) (cs : List Char) (h : isWs c = true) :
    matchAt (c :: cs) = none := by
  unfold matchAt
  have hsw : startsWithCI serverMarker (c :: cs) = false := by
    show startsWithCI ('S' :: ['e', 'r', 'v', 'e', 'r', ':']) (c :: cs) = false
    rw [startsWithCI]
    rcases hd : decide (lowerChar 'S' = lowerChar c) with _ | _
    · simp
    · exact absurd (of_decide_eq_true hd) (fun hh => ws_char_not_marker_head c h hh)
  simp [hsw]

theorem findMatchesFuel_all_ws (fuel : Nat) :
    ∀ (l : List Char), (∀ c ∈ l, isWs c = true) → findMatchesFuel fuel l = [] := by
  induction fuel with
  | zero => intro l _; simp [findMatchesFuel]
  | succ fuel ih =>
    intro l hws
    match l with
    | [] => simp [findMatchesFuel]
    | c :: cs =>
      rw [findMatchesFuel, matchAt_none_of_ws c cs (hws c (by simp))]
      exact ih cs (fun d hd => hws d (by simp [hd]))

theorem all_ws_of_stripChars_nil (l : List Char) (h : stripChars l = []) :
    ∀ c ∈ l, isWs c = true := by
  unfold stripChars at h
  have h2 : (l.dropWhile isWs).reverse.dropWhile isWs = [] := by
    simpa using congrArg List.reverse h
  have hdrop : ∀ c ∈ l.dropWhile isWs, isWs c = true := by
    intro c hc
    have := List.dropWhile_eq_nil_iff.mp h2 c (by simpa using hc)
    exact this
  intro c hc
  rcases List.mem_append.mp
    (by simpa [List.takeWhile_append_dropWhile] using hc :
      c ∈ l.takeWhile isWs ++ l.dropWhile isWs) with h1 | h1
  · simpa using List.mem_takeWhile_imp h1
  · exact hdrop c h1

theorem stripChars_of_no_ws (t : List Char) (h : ∀ c ∈ t, isWs c = false) :
    stripChars t = t := by
  have h1 : t.dropWhile isWs = t := by
    match t with
    | [] => rfl
    | c :: cs => rw [List.dropWhile_cons_of_neg (by simp [h c (by simp)])]
  have h2 : t.reverse.dropWhile isWs = t.reverse := by
    match hr : t.reverse with
    | [] => rfl
    | c :: cs =>
      have hc : c ∈ t := by
        have : c ∈ t.reverse := by rw [hr]; simp
        simpa using this
      rw [List.dropWhile_cons_of_neg (by simp [h c hc])]
  unfold stripChars
  rw [h1, h2, List.reverse_reverse]

theorem mem_dedupFirstFuel (fuel : Nat) :
    ∀ (l : List String) (a : String), l.length ≤ fuel →
      (a ∈ dedupFirstFuel fuel l ↔ a ∈ l) := by
  induction fuel with
  | zero =>
    intro l a hlen
    have : l = [] := List.length_eq_zero.mp (Nat.le_zero.mp hlen)
    subst this
    simp [dedupFirstFuel]
  | succ fuel ih =>
    intro l a hlen
    match l with
    | [] => simp [dedupFirstFuel]
    | x :: xs =>
      rw [dedupFirstFuel]
      have hxs : xs.length ≤ fuel := by
        simp only [List.length_cons] at hlen
        omega
      have hflen : (xs.filter (fun y => !(decide (y = x)))).length ≤ fuel :=
        le_trans (List.length_filter_le _ _) hxs
      constructor
      · intro h
        rcases List.mem_cons.mp h with h1 | h1
        · simp [h1]
        · have := (ih _ a hflen).mp h1
          have := List.mem_of_mem_filter this
          simp [this]
      · intro h
        rcases List.mem_cons.mp h with h1 | h1
        · simp [h1]
        · by_cases hax : a = x
          · simp [hax]
          · refine List.mem_cons.mpr (Or.inr ((ih _ a hflen).mpr ?_))
            exact List.mem_filter.mpr ⟨h1, by simp [hax]⟩

theorem nodup_dedupFirstFuel (fuel : Nat) :
    ∀ (l : List String), l.length ≤ fuel → (dedupFirstFuel fuel l).Nodup := by
  induction fuel with
  | zero => intro l _; simp [dedupFirstFuel]
  | succ fuel ih =>
    intro l hlen
    match l with
    | [] => simp [dedupFirstFuel]
    | x :: xs =>
      rw [dedupFirstFuel]
      have hxs : xs.length ≤ fuel := by
        simp only [List.length_cons] at hlen
        omega
      have hflen : (xs.filter (fun y => !(decide (y = x)))).length ≤ fuel :=
        le_trans (List.length_filter_le _ _) hxs
      refine List.nodup_cons.mpr ⟨fun hmem => ?_, ih _ hflen⟩
      have := (mem_dedupFirstFuel fuel _ x hflen).mp hmem
      have := List.mem_filter.mp this
      simp at this

theorem firstIdx_filter_lt (p : String → Bool) :
    ∀ (l : List String) (a b : String), a ∈ l.filter p → b ∈ l.filter p →
      firstIdx (l.filter p) a < firstIdx (l.filter p) b → firstIdx l a < firstIdx l b := by
  intro l
  induction l with
  | nil => intro a b ha _ _; simp at ha
  | cons c t ih =>
    intro a b ha hb hlt
    by_cases hp : p c
    · rw [List.filter_cons_of_pos hp] at ha hb hlt
      by_cases hca : c = a
      · subst hca
        have hne : ¬ c = b := by
          intro hcb
          subst hcb
          simp [firstIdx] at hlt
        rw [show firstIdx (c :: t) c = 0 by simp [firstIdx]]
        rw [show firstIdx (c :: t) b = firstIdx t b + 1 by simp [firstIdx, hne]]
        exact Nat.succ_pos _
      · have hcb : ¬ c = b := by
          intro hcb
          subst hcb
          rw [show firstIdx (c :: t.filter p) c = 0 by simp [firstIdx]] at hlt
          exact Nat.not_lt_zero _ hlt
        rw [show firstIdx (c :: t.filter p) a = firstIdx (t.filter p) a + 1 by
          simp [firstIdx, hca]] at hlt
        rw [show firstIdx (c :: t.filter p) b = firstIdx (t.filter p) b + 1 by
          simp [firstIdx, hcb]] at hlt
        have ha2 : a ∈ t.filter p := by
          rcases List.mem_cons.mp ha with h1 | h1
          · exact absurd h1.symm hca
          · exact h1
        have hb2 : b ∈ t.filter p := by
          rcases List.mem_cons.mp hb with h1 | h1
          · exact absurd h1.symm hcb
          · exact h1
        have := ih a b ha2 hb2 (Nat.lt_of_succ_lt_succ hlt)
        rw [show firstIdx (c :: t) a = firstIdx t a + 1 by simp [firstIdx, hca]]
        rw [show firstIdx (c :: t) b = firstIdx t b + 1 by simp [firstIdx, hcb]]
        exact Nat.succ_lt_succ this
    · rw [List.filter_cons_of_neg (by simpa using hp)] at ha hb hlt
      have hpa : p a := by simpa using (List.mem_filter.mp ha).2
      have hpb : p b := by simpa using (List.mem_filter.mp hb).2
      have hca : ¬ c = a := fun h => hp (h ▸ hpa)
      have hcb : ¬ c = b := fun h => hp (h ▸ hpb)
      rw [show firstIdx (c :: t) a = firstIdx t a + 1 by simp [firstIdx, hca]]
      rw [show firstIdx (c :: t) b = firstIdx t b + 1 by simp [firstIdx, hcb]]
      exact Nat.succ_lt_succ (ih a b ha hb hlt)

theorem pairwise_firstIdx_dedupFirstFuel (fuel : Nat) :
    ∀ (l : List String), l.length ≤ fuel →
      (dedupFirstFuel fuel l).Pairwise (fun a b => firstIdx l a < firstIdx l b) := by
  induction fuel with
  | zero => intro l _; simp [dedupFirstFuel]
  | succ fuel ih =>
    intro l hlen
    match l with
    | [] => simp [dedupFirstFuel]
    | x :: xs =>
      rw [dedupFirstFuel]
      have hxs : xs.length ≤ fuel := by
        simp only [List.length_cons] at hlen
        omega
      have hflen : (xs.filter (fun y => !(decide (y = x)))).length ≤ fuel :=
        le_trans (List.length_filter_le _ _) hxs
      refine List.pairwise_cons.mpr ⟨fun b hb => ?_, ?_⟩
      · have hbf := (mem_dedupFirstFuel fuel _ b hflen).mp hb
        have hbx : ¬ b = x := by
          have := List.mem_filter.mp hbf
          simpa using this.2
        rw [show firstIdx (x :: xs) x = 0 by simp [firstIdx]]
        have hxb : ¬ x = b := fun hh => hbx hh.symm
        rw [show firstIdx (x :: xs) b = firstIdx xs b + 1 by simp [firstIdx, hxb]]
        exact Nat.succ_pos _
      · have hpw := ih _ hflen
        refine List.Pairwise.imp_of_mem ?_ hpw
        intro a b ha hb hlt
        have haf := (mem_dedupFirstFuel fuel _ a hflen).mp ha
        have hbf := (mem_dedupFirstFuel fuel _ b hflen).mp hb
        have hax : ¬ a = x := by simpa using (List.mem_filter.mp haf).2
        have hbx : ¬ b = x := by simpa using (List.mem_filter.mp hbf).2
        have hxa : ¬ x = a := fun hh => hax hh.symm
        have hxb : ¬ x = b := fun hh => hbx hh.symm
        have := firstIdx_filter_lt _ xs a b haf hbf hlt
        rw [show firstIdx (x :: xs) a = firstIdx xs a + 1 by simp [firstIdx, hxa]]
        rw [show firstIdx (x :: xs) b = firstIdx xs b + 1 by simp [firstIdx, hxb]]
        exact Nat.succ_lt_succ this

theorem cleanedMatches_eq_nil_of_all_ws (text : List Char)
    (h : stripChars text = []) : cleanedMatches text = [] := by
  unfold cleanedMatches findMatches
  rw [findMatchesFuel_all_ws text.length text (all_ws_of_stripChars_nil text h)]
  rfl

theorem mem_cleanedMatches_no_ws (text : List Char) (x : String)
    (h : x ∈ cleanedMatches text) :
    (∀ c ∈ x.data, isWs c = false) ∧ x ≠ "" := by
  unfold cleanedMatches at h
  have hmem := List.mem_filter.mp h
  rcases List.mem_map.mp hmem.1 with ⟨t, ht, hx⟩
  have hspec := findMatchesFuel_no_ws text.length text t ht
  have hstrip : stripChars t = t := stripChars_of_no_ws t hspec.2
  have hxeq : x = String.mk t := by
    rw [← hx]
    show String.mk (stripChars t) = String.mk t
    rw [hstrip]
  constructor
  · intro c hc
    exact hspec.2 c (by rwa [hxeq] at hc)
  · simpa using hmem.2

/-- C6: for any ticket text, the pattern-based extractor returns a list with
no duplicate hostname strings, each element equal to its own stripped form
and nonempty (whitespace trimmed, empty tokens dropped), containing exactly
the cleaned regex captures, in first-occurrence order (elements are sorted
by the position of their first occurrence among the captures). -/
theorem C6_extractor_dedup_order (text : List Char) :
    (extract_hostnames text).Nodup
    ∧ (∀ x, x ∈ extract_hostnames text → (pyStrip x = x ∧ x ≠ ""))
    ∧ (∀ x, x ∈ extract_hostnames text ↔ x ∈ cleanedMatches text)
    ∧ (extract_hostnames text).Pairwise
        (fun a b => firstIdx (cleanedMatches text) a < firstIdx (cleanedMatches text) b) := by
  by_cases hws : stripChars text = []
  · have hcm := cleanedMatches_eq_nil_of_all_ws text hws
    rw [extract_hostnames, if_pos hws]
    simp [hcm]
  · rw [extract_hostnames, if_neg hws]
    have hlen : (cleanedMatches text).length ≤ (cleanedMatches text).length := le_refl _
    refine ⟨nodup_dedupFirstFuel _ _ hlen, fun x hx => ?_, fun x => ?_, ?_⟩
    · have hxc := (mem_dedupFirstFuel _ _ x hlen).mp hx
      have hspec := mem_cleanedMatches_no_ws text x hxc
      refine ⟨?_, hspec.2⟩
      show String.mk (stripChars x.data) = x
      rw [stripChars_of_no_ws x.data hspec.1]
    · exact mem_dedupFirstFuel _ _ x hlen
    · exact pairwise_firstIdx_dedupFirstFuel _ _ hlen

/-- Closed witness for C6 at the text
`Server: WEB01 server: db02 Server: WEB01`: the extractor keeps `WEB01`
and `db02` once each, in first-occurrence order, nonempty and stripped. -/
theorem C6_extractor_dedup_order_witness :
    ("WEB01" ∈ extract_hostnames
        ("Server: WEB01 server: db02 Server: WEB01".data) →
      pyStrip "WEB01" = "WEB01" ∧ "WEB01" ≠ "") ∧
    (extract_hostnames ("Server: WEB01 server: db02 Server: WEB01".data)).Nodup := by
  have h := C6_extractor_dedup_order ("Server: WEB01 server: db02 Server: WEB01".data)
  exact ⟨fun hm => h.2.1 "WEB01" hm, h.1⟩

/-! ## Grouping-loop lemmas (process_tickets, refactor.py) -/

/-- The hostnames that the resolver `f` sends to group key `k`. -/
def resolvesTo (f : String → SGResult) (k : Option String) (h : String) : Bool :=
  (f h).found && decide ((f h).support_group = k)

theorem keys_appendToGroup (gs : List (Option String × GroupData)) (k : Option String)
    (h : String) : (appendToGroup gs k h).map Prod.fst = gs.map Prod.fst := by
  unfold appendToGroup
  rw [List.map_map]
  refine List.map_congr_left fun p _ => ?_
  by_cases hp : p.1 = k <;> simp [hp]

theorem hasGroup_iff_mem_keys (gs : List (Option String × GroupData)) (k : Option String) :
    hasGroup gs k = true ↔ k ∈ gs.map Prod.fst := by
  unfold hasGroup
  rw [List.find?_isSome]
  constructor
  · rintro ⟨p, hp, hpk⟩
    exact List.mem_map.mpr ⟨p, hp, by simpa using hpk⟩
  · rintro hk
    rcases List.mem_map.mp hk with ⟨p, hp, hpk⟩
    exact ⟨p, hp, by simp [hpk]⟩

theorem groupHostnames_eq_nil_of_not_has (gs : List (Option String × GroupData))
    (k : Option String) (hg : hasGroup gs k = false) : groupHostnames gs k = [] := by
  unfold hasGroup at hg
  unfold groupHostnames
  rcases hf : gs.find? (fun p => decide (p.1 = k)) with _ | p
  · rw [hf]
  · rw [hf] at hg
    simp at hg

theorem groupHostnames_appendToGroup_self (gs : List (Option String × GroupData))
    (k : Option String) (h : String) (hg : hasGroup gs k = true) :
    groupHostnames (appendToGroup gs k h) k = groupHostnames gs k ++ [h] := by
  induction gs with
  | nil => simp [hasGroup] at hg
  | cons p rest ih =>
    by_cases hpk : p.1 = k
    · unfold appendToGroup groupHostnames
      simp only [List.map_cons, if_pos hpk]
      rw [List.find?_cons_of_pos _ (by simp [hpk]), List.find?_cons_of_pos _ (by simp [hpk])]
    · have hg2 : hasGroup rest k = true := by
        unfold hasGroup at hg ⊢
        rwa [List.find?_cons_of_neg _ (by simp [hpk])] at hg
      have := ih hg2
      unfold appendToGroup groupHostnames at this ⊢
      simp only [List.map_cons, if_neg hpk]
      rw [List.find?_cons_of_neg _ (by simp [hpk]), List.find?_cons_of_neg _ (by simp [hpk])]
      exact this

theorem groupHostnames_appendToGroup_ne (gs : List (Option String × GroupData))
    (k k2 : Option String) (h : String) (hne : ¬ k2 = k) :
    groupHostnames (appendToGroup gs k h) k2 = groupHostnames gs k2 := by
  induction gs with
  | nil => rfl
  | cons p rest ih =>
    by_cases hpk : p.1 = k
    · have hp2 : ¬ p.1 = k2 := by rw [hpk]; exact fun hh => hne hh.symm
      unfold appendToGroup groupHostnames at ih ⊢
      simp only [List.map_cons, if_pos hpk]
      rw [List.find?_cons_of_neg _ (by simp [hp2]), List.find?_cons_of_neg _ (by simp [hp2])]
      exact ih
    · unfold appendToGroup groupHostnames at ih ⊢
      simp only [List.map_cons, if_neg hpk]
      by_cases hp2 : p.1 = k2
      · rw [List.find?_cons_of_pos _ (by simp [hp2]), List.find?_cons_of_pos _ (by simp [hp2])]
      · rw [List.find?_cons_of_neg _ (by simp [hp2]), List.find?_cons_of_neg _ (by simp [hp2])]
        exact ih

theorem groupHostnames_append_entry_self (gs : List (Option String × GroupData))
    (k : Option String) (d : GroupData) (hg : hasGroup gs k = false) :
    groupHostnames (gs ++ [(k, d)]) k = d.hostnames := by
  induction gs with
  | nil => simp [groupHostnames, List.find?]
  | cons p rest ih =>
    have hpk : ¬ p.1 = k := by
      intro hh
      unfold hasGroup at hg
      rw [List.find?_cons_of_pos _ (by simp [hh])] at hg
      simp at hg
    have hg2 : hasGroup rest k = false := by
      unfold hasGroup at hg ⊢
      rwa [List.find?_cons_of_neg _ (by simp [hpk])] at hg
    unfold groupHostnames at ih ⊢
    rw [List.cons_append, List.find?_cons_of_neg _ (by simp [hpk])]
    exact ih hg2

theorem groupHostnames_append_entry_ne (gs : List (Option String × GroupData))
    (k k2 : Option String) (d : GroupData) (hne : ¬ k2 = k) :
    groupHostnames (gs ++ [(k, d)]) k2 = groupHostnames gs k2 := by
  induction gs with
  | nil =>
    have hne2 : ¬ k = k2 := fun hh => hne hh.symm
    unfold groupHostnames
    rw [List.nil_append, List.find?_cons_of_neg _ (by simp [hne2])]
  | cons p rest ih =>
    unfold groupHostnames at ih ⊢
    by_cases hp2 : p.1 = k2
    · rw [List.cons_append, List.find?_cons_of_pos _ (by simp [hp2]),
        List.find?_cons_of_pos _ (by simp [hp2])]
    · rw [List.cons_append, List.find?_cons_of_neg _ (by simp [hp2]),
        List.find?_cons_of_neg _ (by simp [hp2])]
      exact ih

theorem hasGroup_append_self (gs : List (Option String × GroupData)) (k : Option String)
    (d : GroupData) : hasGroup (gs ++ [(k, d)]) k = true := by
  rw [hasGroup_iff_mem_keys]
  simp

theorem buildStep_sgTrace (f : String → SGResult) (g : Option String → AOResult)
    (st : GState) (h : String) : (buildStep f g st h).sgTrace = st.sgTrace ++ [h] := by
  simp only [buildStep]
  split
  · rfl
  · split <;> rfl

theorem buildStep_not_found (f : String → SGResult) (g : Option String → AOResult)
    (st : GState) (h : String) :
    (buildStep f g st h).not_found =
      st.not_found ++ (if (f h).found = false then [h] else []) := by
  simp only [buildStep]
  by_cases hf : (f h).found = false
  · rw [if_pos hf, if_pos hf]
  · rw [if_neg hf, if_neg hf]
    split <;> simp

theorem buildStep_eq_notfound (f : String → SGResult) (g : Option String → AOResult)
    (st : GState) (h : String) (hf : (f h).found = false) :
    buildStep f g st h =
      { st with
        sgTrace := st.sgTrace ++ [h],
        not_found := st.not_found ++ [h] } := by
  simp only [buildStep]
  rw [if_pos hf]

theorem buildStep_eq_found (f : String → SGResult) (g : Option String → AOResult)
    (st : GState) (h : String) (hf : (f h).found = true)
    (hg : hasGroup st.groups (f h).support_group = true) :
    buildStep f g st h =
      { st with
        sgTrace := st.sgTrace ++ [h],
        groups := appendToGroup st.groups (f h).support_group h } := by
  simp only [buildStep]
  rw [if_neg (by simp [hf]), if_pos hg]

theorem buildStep_eq_new (f : String → SGResult) (g : Option String → AOResult)
    (st : GState) (h : String) (hf : (f h).found = true)
    (hg : hasGroup st.groups (f h).support_group = false) :
    buildStep f g st h =
      { st with
        sgTrace := st.sgTrace ++ [h],
        aoTrace := st.aoTrace ++ [(f h).support_group],
        groups := appendToGroup
          (st.groups ++ [((f h).support_group,
            ⟨[], (f h).support_group,
             (if (g (f h).support_group).found then (g (f h).support_group).contacts else none),
             (g (f h).support_group).found⟩)])
          (f h).support_group h } := by
  simp only [buildStep]
  rw [if_neg (by simp [hf]), if_neg (by simp [hg])]

theorem buildStep_groupHostnames (f : String → SGResult) (g : Option String → AOResult)
    (st : GState) (h : String) (k : Option String) :
    groupHostnames (buildStep f g st h).groups k =
      groupHostnames st.groups k ++ (if resolvesTo f k h then [h] else []) := by
  rcases hf : (f h).found with _ | _
  · rw [buildStep_eq_notfound f g st h hf]
    simp [resolvesTo, hf]
  · by_cases hk : (f h).support_group = k
    · subst hk
      have hres : resolvesTo f (f h).support_group h = true := by
        simp [resolvesTo, hf]
      rw [if_pos hres]
      rcases hg : hasGroup st.groups (f h).support_group with _ | _
      · rw [buildStep_eq_new f g st h hf hg]
        have h1 := groupHostnames_appendToGroup_self
          (st.groups ++ [((f h).support_group,
            ⟨[], (f h).support_group,
             (if (g (f h).support_group).found then (g (f h).support_group).contacts else none),
             (g (f h).support_group).found⟩)])
          (f h).support_group h (hasGroup_append_self _ _ _)
        show groupHostnames (appendToGroup _ _ _) _ = _
        rw [h1, groupHostnames_append_entry_self st.groups _ _ hg,
          groupHostnames_eq_nil_of_not_has st.groups _ hg]
      · rw [buildStep_eq_found f g st h hf hg]
        exact groupHostnames_appendToGroup_self _ _ _ hg
    · have hres : resolvesTo f k h = false := by
        simp [resolvesTo, hk]
      rw [if_neg (by simp [hres]), List.append_nil]
      have hkne : ¬ k = (f h).support_group := fun hh => hk hh.symm
      rcases hg : hasGroup st.groups (f h).support_group with _ | _
      · rw [buildStep_eq_new f g st h hf hg]
        show groupHostnames (appendToGroup _ _ _) _ = _
        rw [groupHostnames_appendToGroup_ne _ _ _ _ hkne,
          groupHostnames_append_entry_ne _ _ _ _ hkne]
      · rw [buildStep_eq_found f g st h hf hg]
        exact groupHostnames_appendToGroup_ne _ _ _ _ hkne

theorem buildStep_keys (f : String → SGResult) (g : Option String → AOResult)
    (st : GState) (h : String) :
    (buildStep f g st h).groups.map Prod.fst =
      st.groups.map Prod.fst ++
        (if (f h).found = true ∧ hasGroup st.groups (f h).support_group = false
         then [(f h).support_group] else []) := by
  rcases hf : (f h).found with _ | _
  · rw [buildStep_eq_notfound f g st h hf]
    simp [hf]
  · rcases hg : hasGroup st.groups (f h).support_group with _ | _
    · rw [buildStep_eq_new f g st h hf hg]
      show (appendToGroup _ _ _).map Prod.fst = _
      rw [keys_appendToGroup]
      simp [hf, hg]
    · rw [buildStep_eq_found f g st h hf hg]
      show (appendToGroup _ _ _).map Prod.fst = _
      rw [keys_appendToGroup]
      simp [hg]

theorem buildStep_aoTrace (f : String → SGResult) (g : Option String → AOResult)
    (st : GState) (h : String) :
    (buildStep f g st h).aoTrace =
      st.aoTrace ++
        (if (f h).found = true ∧ hasGroup st.groups (f h).support_group = false
         then [(f h).support_group] else []) := by
  rcases hf : (f h).found with _ | _
  · rw [buildStep_eq_notfound f g st h hf]
    simp [hf]
  · rcases hg : hasGroup st.groups (f h).support_group with _ | _
    · rw [buildStep_eq_new f g st h hf hg]
      simp [hf, hg]
    · rw [buildStep_eq_found f g st h hf hg]
      simp [hg]

theorem bundle_inv_appendToGroup (g : Option String → AOResult)
    (gs : List (Option String × GroupData)) (k0 : Option String) (h : String)
    (hgs : ∀ k d, (k, d) ∈ gs →
      d.contacts = (if (g k).found then (g k).contacts else none) ∧
      d.contact_lookup_successful = (g k).found) :
    ∀ k d, (k, d) ∈ appendToGroup gs k0 h →
      d.contacts = (if (g k).found then (g k).contacts else none) ∧
      d.contact_lookup_successful = (g k).found := by
  intro k d hmem
  rcases List.mem_map.mp hmem with ⟨p, hp, hpd⟩
  by_cases hpk : p.1 = k0
  · rw [if_pos hpk] at hpd
    have hk : p.1 = k := congrArg Prod.fst hpd
    have hd : ({ p.2 with hostnames := p.2.hostnames ++ [h] } : GroupData) = d :=
      congrArg Prod.snd hpd
    have hbase := hgs p.1 p.2 (by simpa using hp)
    subst hk
    rw [← hd]
    exact hbase
  · rw [if_neg hpk] at hpd
    exact hgs k d (by rwa [hpd] at hp)

theorem buildStep_bundle_inv (f : String → SGResult) (g : Option String → AOResult)
    (st : GState) (h : String)
    (hinv : ∀ k d, (k, d) ∈ st.groups →
      d.contacts = (if (g k).found then (g k).contacts else none) ∧
      d.contact_lookup_successful = (g k).found) :
    ∀ k d, (k, d) ∈ (buildStep f g st h).groups →
      d.contacts = (if (g k).found then (g k).contacts else none) ∧
      d.contact_lookup_successful = (g k).found := by
  rcases hf : (f h).found with _ | _
  · rw [buildStep_eq_notfound f g st h hf]
    exact hinv
  · rcases hg : hasGroup st.groups (f h).support_group with _ | _
    · rw [buildStep_eq_new f g st h hf hg]
      refine bundle_inv_appendToGroup g _ _ h ?_
      intro k d hmem
      rcases List.mem_append.mp hmem with h1 | h1
      · exact hinv k d h1
      · have heq : (k, d) = ((f h).support_group,
            (⟨[], (f h).support_group,
             (if (g (f h).support_group).found then (g (f h).support_group).contacts else none),
             (g (f h).support_group).found⟩ : GroupData)) := by simpa using h1
        have hk : k = (f h).support_group := congrArg Prod.fst heq
        have hd := congrArg Prod.snd heq
        subst hk
        simp only at hd
        rw [hd]
        exact ⟨rfl, rfl⟩
    · rw [buildStep_eq_found f g st h hf hg]
      exact bundle_inv_appendToGroup g _ _ h hinv

/-! ## Whole-loop lemmas for the grouping stage -/

theorem buildAux_sgTrace (f : String → SGResult) (g : Option String → AOResult) :
    ∀ (hs : List String) (st : GState),
      (buildGroupsAux f g st hs).sgTrace = st.sgTrace ++ hs := by
  intro hs
  induction hs with
  | nil => intro st; simp [buildGroupsAux]
  | cons h hs ih =>
    intro st
    rw [buildGroupsAux, ih, buildStep_sgTrace]
    simp

theorem buildAux_not_found (f : String → SGResult) (g : Option String → AOResult) :
    ∀ (hs : List String) (st : GState),
      (buildGroupsAux f g st hs).not_found =
        st.not_found ++ hs.filter (fun h2 => !(f h2).found) := by
  intro hs
  induction hs with
  | nil => intro st; simp [buildGroupsAux]
  | cons h hs ih =>
    intro st
    rw [buildGroupsAux, ih, buildStep_not_found]
    rcases hf : (f h).found with _ | _ <;>
      simp [List.filter_cons, hf]

theorem buildAux_groupHostnames (f : String → SGResult) (g : Option String → AOResult) :
    ∀ (hs : List String) (st : GState) (k : Option String),
      groupHostnames (buildGroupsAux f g st hs).groups k =
        groupHostnames st.groups k ++ hs.filter (resolvesTo f k) := by
  intro hs
  induction hs with
  | nil => intro st k; simp [buildGroupsAux]
  | cons h hs ih =>
    intro st k
    rw [buildGroupsAux, ih, buildStep_groupHostnames]
    rcases hr : resolvesTo f k h with _ | _ <;>
      simp [List.filter_cons, hr]

theorem buildAux_keys_nodup (f : String → SGResult) (g : Option String → AOResult) :
    ∀ (hs : List String) (st : GState),
      (st.groups.map Prod.fst).Nodup →
      ((buildGroupsAux f g st hs).groups.map Prod.fst).Nodup := by
  intro hs
  induction hs with
  | nil => intro st hnd; simpa [buildGroupsAux] using hnd
  | cons h hs ih =>
    intro st hnd
    rw [buildGroupsAux]
    refine ih _ ?_
    rw [buildStep_keys]
    by_cases hc : (f h).found = true ∧ hasGroup st.groups (f h).support_group = false
    · rw [if_pos hc]
      have hnm : (f h).support_group ∉ st.groups.map Prod.fst := by
        intro hmem
        have := (hasGroup_iff_mem_keys st.groups (f h).support_group).mpr hmem
        rw [hc.2] at this
        exact Bool.false_ne_true this
      simp [List.nodup_append, hnd, hnm]
    · rw [if_neg hc]
      simpa using hnd

theorem buildAux_aoTrace_keys (f : String → SGResult) (g : Option String → AOResult) :
    ∀ (hs : List String) (st : GState),
      st.aoTrace = st.groups.map Prod.fst →
      (buildGroupsAux f g st hs).aoTrace = (buildGroupsAux f g st hs).groups.map Prod.fst := by
  intro hs
  induction hs with
  | nil => intro st hinv; simpa [buildGroupsAux] using hinv
  | cons h hs ih =>
    intro st hinv
    rw [buildGroupsAux]
    refine ih _ ?_
    rw [buildStep_keys, buildStep_aoTrace, hinv]

theorem buildAux_bundle_inv (f : String → SGResult) (g : Option String → AOResult) :
    ∀ (hs : List String) (st : GState),
      (∀ k d, (k, d) ∈ st.groups →
        d.contacts = (if (g k).found then (g k).contacts else none) ∧
        d.contact_lookup_successful = (g k).found) →
      ∀ k d, (k, d) ∈ (buildGroupsAux f g st hs).groups →
        d.contacts = (if (g k).found then (g k).contacts else none) ∧
        d.contact_lookup_successful = (g k).found := by
  intro hs
  induction hs with
  | nil => intro st hinv; simpa [buildGroupsAux] using hinv
  | cons h hs ih =>
    intro st hinv
    rw [buildGroupsAux]
    exact ih _ (buildStep_bundle_inv f g st h hinv)

theorem find?_entry_of_mem_keys_nodup (gs : List (Option String × GroupData))
    (hnd : (gs.map Prod.fst).Nodup) (p : Option String × GroupData) (hp : p ∈ gs) :
    gs.find? (fun q => decide (q.1 = p.1)) = some p := by
  induction gs with
  | nil => simp at hp
  | cons q rest ih =>
    rcases List.mem_cons.mp hp with h1 | h1
    · subst h1
      rw [List.find?_cons_of_pos _ (by simp)]
    · have hq : ¬ q.1 = p.1 := by
        intro hh
        have hmem : p.1 ∈ rest.map Prod.fst := List.mem_map.mpr ⟨p, h1, rfl⟩
        rw [← hh] at hmem
        exact (List.nodup_cons.mp (by simpa using hnd)).1 hmem
      rw [List.find?_cons_of_neg _ (by simp [hq])]
      exact ih (List.nodup_cons.mp (by simpa using hnd)).2 h1

theorem mem_allGroupHostnames_iff (gs : List (Option String × GroupData))
    (hnd : (gs.map Prod.fst).Nodup) (h : String) :
    h ∈ allGroupHostnames gs ↔ ∃ k, h ∈ groupHostnames gs k := by
  constructor
  · intro hmem
    rcases List.mem_flatten.mp hmem with ⟨l, hl, hhl⟩
    rcases List.mem_map.mp hl with ⟨p, hp, hpl⟩
    refine ⟨p.1, ?_⟩
    unfold groupHostnames
    rw [find?_entry_of_mem_keys_nodup gs hnd p hp]
    show h ∈ p.2.hostnames
    rw [hpl]
    exact hhl
  · rintro ⟨k, hk⟩
    unfold groupHostnames at hk
    rcases hf : gs.find? (fun p => decide (p.1 = k)) with _ | p
    · rw [hf] at hk
      simp at hk
    · rw [hf] at hk
      have hp : p ∈ gs := List.mem_of_find?_eq_some hf
      exact List.mem_flatten.mpr ⟨p.2.hostnames, List.mem_map.mpr ⟨p, hp, rfl⟩, hk⟩

/-- Partition of the grouping stage of `process_tickets` (refactor.py):
every hostname lands either in `hostnames_not_found` or in the hostname
list of a group, the union of the two places is exactly the input hostname
set, the two places never overlap, group keys are unique, and no hostname
appears under two different group keys. -/
theorem refactorGrouping_partition (f : String → SGResult) (g : Option String → AOResult)
    (hs : List String) :
    (∀ h, (h ∈ (buildGroupsAux f g initG hs).not_found ∨
           h ∈ allGroupHostnames (buildGroupsAux f g initG hs).groups) ↔ h ∈ hs)
    ∧ (∀ h, ¬ (h ∈ (buildGroupsAux f g initG hs).not_found ∧
           h ∈ allGroupHostnames (buildGroupsAux f g initG hs).groups))
    ∧ ((buildGroupsAux f g initG hs).groups.map Prod.fst).Nodup
    ∧ (∀ k1 k2 h, h ∈ groupHostnames (buildGroupsAux f g initG hs).groups k1 →
        h ∈ groupHostnames (buildGroupsAux f g initG hs).groups k2 → k1 = k2) := by
  have hnf : ∀ h, h ∈ (buildGroupsAux f g initG hs).not_found ↔
      (h ∈ hs ∧ (f h).found = false) := by
    intro h
    rw [buildAux_not_found]
    simp [initG]
  have hgh : ∀ k h, h ∈ groupHostnames (buildGroupsAux f g initG hs).groups k ↔
      (h ∈ hs ∧ resolvesTo f k h = true) := by
    intro k h
    rw [buildAux_groupHostnames]
    simp [initG, groupHostnames]
  have hnd : ((buildGroupsAux f g initG hs).groups.map Prod.fst).Nodup :=
    buildAux_keys_nodup f g hs initG (by simp [initG])
  have hall : ∀ h, h ∈ allGroupHostnames (buildGroupsAux f g initG hs).groups ↔
      (h ∈ hs ∧ (f h).found = true) := by
    intro h
    rw [mem_allGroupHostnames_iff _ hnd]
    constructor
    · rintro ⟨k, hk⟩
      have := (hgh k h).mp hk
      refine ⟨this.1, ?_⟩
      have hr2 : (f h).found = true ∧ (f h).support_group = k := by
        simpa [resolvesTo] using this.2
      exact hr2.1
    · rintro ⟨hmem, hfound⟩
      refine ⟨(f h).support_group, (hgh _ h).mpr ⟨hmem, ?_⟩⟩
      simp [resolvesTo, hfound]
  refine ⟨fun h => ?_, fun h => ?_, hnd, fun k1 k2 h h1 h2 => ?_⟩
  · rw [hnf, hall]
    constructor
    · rintro (⟨hm, _⟩ | ⟨hm, _⟩) <;> exact hm
    · intro hm
      rcases hfb : (f h).found with _ | _
      · exact Or.inl ⟨hm, rfl⟩
      · exact Or.inr ⟨hm, rfl⟩
  · rw [hnf, hall]
    rintro ⟨⟨_, hfalse⟩, ⟨_, htrue⟩⟩
    rw [hfalse] at htrue
    exact Bool.false_ne_true htrue
  · have hr1 := ((hgh k1 h).mp h1).2
    have hr2 := ((hgh k2 h).mp h2).2
    have e1 : (f h).found = true ∧ (f h).support_group = k1 := by
      simpa [resolvesTo] using hr1
    have e2 : (f h).found = true ∧ (f h).support_group = k2 := by
      simpa [resolvesTo] using hr2
    rw [← e1.2, ← e2.2]

/-! ## Partition of `collate_ticket_results` (main.py)

Mirror of the grouping analysis for the main.py loop.  A parsed host is
processed only when its hostname is a nonempty string (`if not hostname:
continue`); `mNotFoundTag` and `mResolvesTo` are the exact conditions
under which the loop sends a host entry to `hostnames_not_found` or to the
group keyed `k`. -/

def mNotFoundTag (sgRes : String → MSGInfo) (host : Host) : Bool :=
  !(decide (host.hostname = "")) && !(sgRes host.hostname).found

def mResolvesTo (sgRes : String → MSGInfo) (k : Option String) (host : Host) : Bool :=
  !(decide (host.hostname = "")) &&
    ((sgRes host.hostname).found && decide ((sgRes host.hostname).support_group = k))

def mGroupHostnames (gs : List (Option String × MGroup)) (k : Option String) : List String :=
  match gs.find? (fun p => decide (p.1 = k)) with
  | some p => p.2.hostnames
  | none => []

def allMGroupHostnames (gs : List (Option String × MGroup)) : List String :=
  (gs.map (fun p => p.2.hostnames)).flatten

def mHasGroup (gs : List (Option String × MGroup)) (k : Option String) : Bool :=
  (gs.find? (fun p => decide (p.1 = k))).isSome

theorem mHasGroup_iff_mem_keys (gs : List (Option String × MGroup)) (k : Option String) :
    mHasGroup gs k = true ↔ k ∈ gs.map Prod.fst := by
  unfold mHasGroup
  rw [List.find?_isSome]
  constructor
  · rintro ⟨p, hp, hpk⟩
    exact List.mem_map.mpr ⟨p, hp, by simpa using hpk⟩
  · rintro hk
    rcases List.mem_map.mp hk with ⟨p, hp, hpk⟩
    exact ⟨p, hp, by simp [hpk]⟩

theorem mGroupHostnames_eq_nil_of_not_has (gs : List (Option String × MGroup))
    (k : Option String) (hg : mHasGroup gs k = false) : mGroupHostnames gs k = [] := by
  unfold mHasGroup at hg
  unfold mGroupHostnames
  rcases hf : gs.find? (fun p => decide (p.1 = k)) with _ | p
  · rw [hf]
  · rw [hf] at hg
    simp at hg

theorem mKeys_update (gs : List (Option String × MGroup)) (k : Option String)
    (hn it : String) (host : Host) (b1 b2 : Bool) :
    ((gs.map (fun p => if p.1 = k then (p.1, addHostToMGroup p.2 hn it host b1 b2) else p)).map
      Prod.fst) = gs.map Prod.fst := by
  rw [List.map_map]
  refine List.map_congr_left fun p _ => ?_
  by_cases hp : p.1 = k <;> simp [hp]

theorem mGroupHostnames_update_self (gs : List (Option String × MGroup)) (k : Option String)
    (hn it : String) (host : Host) (b1 b2 : Bool) (hg : mHasGroup gs k = true) :
    mGroupHostnames
      (gs.map (fun p => if p.1 = k then (p.1, addHostToMGroup p.2 hn it host b1 b2) else p)) k =
      mGroupHostnames gs k ++ [hn] := by
  induction gs with
  | nil => simp [mHasGroup] at hg
  | cons p rest ih =>
    by_cases hpk : p.1 = k
    · unfold mGroupHostnames
      simp only [List.map_cons, if_pos hpk]
      rw [List.find?_cons_of_pos _ (by simp [hpk]), List.find?_cons_of_pos _ (by simp [hpk])]
      simp [addHostToMGroup]
    · have hg2 : mHasGroup rest k = true := by
        unfold mHasGroup at hg ⊢
        rwa [List.find?_cons_of_neg _ (by simp [hpk])] at hg
      have := ih hg2
      unfold mGroupHostnames at this ⊢
      simp only [List.map_cons, if_neg hpk]
      rw [List.find?_cons_of_neg _ (by simp [hpk]), List.find?_cons_of_neg _ (by simp [hpk])]
      exact this

theorem mGroupHostnames_update_ne (gs : List (Option String × MGroup)) (k k2 : Option String)
    (hn it : String) (host : Host) (b1 b2 : Bool) (hne : ¬ k2 = k) :
    mGroupHostnames
      (gs.map (fun p => if p.1 = k then (p.1, addHostToMGroup p.2 hn it host b1 b2) else p)) k2 =
      mGroupHostnames gs k2 := by
  induction gs with
  | nil => rfl
  | cons p rest ih =>
    by_cases hpk : p.1 = k
    · have hp2 : ¬ p.1 = k2 := by rw [hpk]; exact fun hh => hne hh.symm
      unfold mGroupHostnames at ih ⊢
      simp only [List.map_cons, if_pos hpk]
      rw [List.find?_cons_of_neg _ (by simp [hp2]), List.find?_cons_of_neg _ (by simp [hp2])]
      exact ih
    · unfold mGroupHostnames at ih ⊢
      simp only [List.map_cons, if_neg hpk]
      by_cases hp2 : p.1 = k2
      · rw [List.find?_cons_of_pos _ (by simp [hp2]), List.find?_cons_of_pos _ (by simp [hp2])]
      · rw [List.find?_cons_of_neg _ (by simp [hp2]), List.find?_cons_of_neg _ (by simp [hp2])]
        exact ih

theorem mGroupHostnames_append_self (gs : List (Option String × MGroup))
    (k : Option String) (g0 : MGroup) (hg : mHasGroup gs k = false) :
    mGroupHostnames (gs ++ [(k, g0)]) k = g0.hostnames := by
  induction gs with
  | nil => simp [mGroupHostnames, List.find?]
  | cons p rest ih =>
    have hpk : ¬ p.1 = k := by
      intro hh
      unfold mHasGroup at hg
      rw [List.find?_cons_of_pos _ (by simp [hh])] at hg
      simp at hg
    have hg2 : mHasGroup rest k = false := by
      unfold mHasGroup at hg ⊢
      rwa [List.find?_cons_of_neg _ (by simp [hpk])] at hg
    unfold mGroupHostnames at ih ⊢
    rw [List.cons_append, List.find?_cons_of_neg _ (by simp [hpk])]
    exact ih hg2

theorem mGroupHostnames_append_ne (gs : List (Option String × MGroup))
    (k k2 : Option String) (g0 : MGroup) (hne : ¬ k2 = k) :
    mGroupHostnames (gs ++ [(k, g0)]) k2 = mGroupHostnames gs k2 := by
  induction gs with
  | nil =>
    have hne2 : ¬ k = k2 := fun hh => hne hh.symm
    unfold mGroupHostnames
    rw [List.nil_append, List.find?_cons_of_neg _ (by simp [hne2])]
  | cons p rest ih =>
    unfold mGroupHostnames at ih ⊢
    by_cases hp2 : p.1 = k2
    · rw [List.cons_append, List.find?_cons_of_pos _ (by simp [hp2]),
        List.find?_cons_of_pos _ (by simp [hp2])]
    · rw [List.cons_append, List.find?_cons_of_neg _ (by simp [hp2]),
        List.find?_cons_of_neg _ (by simp [hp2])]
      exact ih

theorem mHasGroup_append_self (gs : List (Option String × MGroup)) (k : Option String)
    (g0 : MGroup) : mHasGroup (gs ++ [(k, g0)]) k = true := by
  rw [mHasGroup_iff_mem_keys]
  simp

theorem mFind?_entry_of_mem_keys_nodup (gs : List (Option String × MGroup))
    (hnd : (gs.map Prod.fst).Nodup) (p : Option String × MGroup) (hp : p ∈ gs) :
    gs.find? (fun q => decide (q.1 = p.1)) = some p := by
  induction gs with
  | nil => simp at hp
  | cons q rest ih =>
    rcases List.mem_cons.mp hp with h1 | h1
    · subst h1
      rw [List.find?_cons_of_pos _ (by simp)]
    · have hq : ¬ q.1 = p.1 := by
        intro hh
        have hmem : p.1 ∈ rest.map Prod.fst := List.mem_map.mpr ⟨p, h1, rfl⟩
        rw [← hh] at hmem
        exact (List.nodup_cons.mp (by simpa using hnd)).1 hmem
      rw [List.find?_cons_of_neg _ (by simp [hq])]
      exact ih (List.nodup_cons.mp (by simpa using hnd)).2 h1

theorem mem_allMGroupHostnames_iff (gs : List (Option String × MGroup))
    (hnd : (gs.map Prod.fst).Nodup) (h : String) :
    h ∈ allMGroupHostnames gs ↔ ∃ k, h ∈ mGroupHostnames gs k := by
  constructor
  · intro hmem
    rcases List.mem_flatten.mp hmem with ⟨l, hl, hhl⟩
    rcases List.mem_map.mp hl with ⟨p, hp, hpl⟩
    refine ⟨p.1, ?_⟩
    unfold mGroupHostnames
    rw [mFind?_entry_of_mem_keys_nodup gs hnd p hp]
    show h ∈ p.2.hostnames
    rw [hpl]
    exact hhl
  · rintro ⟨k, hk⟩
    unfold mGroupHostnames at hk
    rcases hf : gs.find? (fun p => decide (p.1 = k)) with _ | p
    · rw [hf] at hk
      simp at hk
    · rw [hf] at hk
      have hp : p ∈ gs := List.mem_of_find?_eq_some hf
      exact List.mem_flatten.mpr ⟨p.2.hostnames, List.mem_map.mpr ⟨p, hp, rfl⟩, hk⟩

theorem collateStep_eq_skip (sgRes : String → MSGInfo) (aoRes : Option String → MAOInfo)
    (it : String) (st : CState) (host : Host) (he : host.hostname = "") :
    collateStep sgRes aoRes it st host = st := by
  simp only [collateStep]
  rw [if_pos he]

theorem collateStep_groups_notfound (sgRes : String → MSGInfo)
    (aoRes : Option String → MAOInfo) (it : String) (st : CState) (host : Host)
    (he : ¬ host.hostname = "") (hf : (sgRes host.hostname).found = false) :
    (collateStep sgRes aoRes it st host).groups = st.groups := by
  simp only [collateStep]
  rw [if_neg he, if_pos hf]
  split <;> rfl

theorem collateStep_not_found_notfound (sgRes : String → MSGInfo)
    (aoRes : Option String → MAOInfo) (it : String) (st : CState) (host : Host)
    (he : ¬ host.hostname = "") (hf : (sgRes host.hostname).found = false) :
    (collateStep sgRes aoRes it st host).hostnames_not_found =
      st.hostnames_not_found ++ [host.hostname] := by
  simp only [collateStep]
  rw [if_neg he, if_pos hf]
  split <;> rfl

theorem collateStep_groups_found (sgRes : String → MSGInfo)
    (aoRes : Option String → MAOInfo) (it : String) (st : CState) (host : Host)
    (he : ¬ host.hostname = "") (hf : (sgRes host.hostname).found = true) :
    (collateStep sgRes aoRes it st host).groups =
      (if (st.groups.find?
            (fun p => decide (p.1 = (sgRes host.hostname).support_group))).isSome = true
       then st.groups
       else st.groups ++ [((sgRes host.hostname).support_group,
         ⟨(sgRes host.hostname).support_group, [],
          (aoRes (sgRes host.hostname).support_group).email_distros,
          (aoRes (sgRes host.hostname).support_group).individual_contacts, [], []⟩)]).map
        (fun p => if p.1 = (sgRes host.hostname).support_group then
           (p.1, addHostToMGroup p.2 host.hostname it host (sgRes host.hostname).found
             (aoRes (sgRes host.hostname).support_group).found)
         else p) := by
  simp only [collateStep]
  rw [if_neg he, if_neg (by simp [hf])]
  dsimp only
  congr 1
  by_cases howf : (aoRes (sgRes host.hostname).support_group).found = false
  · simp only [if_pos howf]
    rcases herr : (aoRes (sgRes host.hostname).support_group).error with _ | e <;>
      simp only [herr] <;> split <;> rfl
  · simp only [if_neg howf]
    split <;> rfl

theorem collateStep_not_found_found (sgRes : String → MSGInfo)
    (aoRes : Option String → MAOInfo) (it : String) (st : CState) (host : Host)
    (he : ¬ host.hostname = "") (hf : (sgRes host.hostname).found = true) :
    (collateStep sgRes aoRes it st host).hostnames_not_found =
      st.hostnames_not_found := by
  simp only [collateStep]
  rw [if_neg he, if_neg (by simp [hf])]
  dsimp only
  by_cases howf : (aoRes (sgRes host.hostname).support_group).found = false
  · simp only [if_pos howf]
    rcases herr : (aoRes (sgRes host.hostname).support_group).error with _ | e <;>
      simp only [herr] <;> split <;> rfl
  · simp only [if_neg howf]
    split <;> rfl

theorem collateStep_hostnames_not_found (sgRes : String → MSGInfo)
    (aoRes : Option String → MAOInfo) (it : String) (st : CState) (host : Host) :
    (collateStep sgRes aoRes it st host).hostnames_not_found =
      st.hostnames_not_found ++ (if mNotFoundTag sgRes host then [host.hostname] else []) := by
  by_cases he : host.hostname = ""
  · rw [collateStep_eq_skip sgRes aoRes it st host he]
    simp [mNotFoundTag, he]
  · rcases hf : (sgRes host.hostname).found with _ | _
    · rw [collateStep_not_found_notfound sgRes aoRes it st host he hf]
      simp [mNotFoundTag, he, hf]
    · rw [collateStep_not_found_found sgRes aoRes it st host he hf]
      simp [mNotFoundTag, he, hf]

theorem collateStep_mGroupHostnames (sgRes : String → MSGInfo)
    (aoRes : Option String → MAOInfo) (it : String) (st : CState) (host : Host)
    (k : Option String) :
    mGroupHostnames (collateStep sgRes aoRes it st host).groups k =
      mGroupHostnames st.groups k ++
        (if mResolvesTo sgRes k host then [host.hostname] else []) := by
  by_cases he : host.hostname = ""
  · rw [collateStep_eq_skip sgRes aoRes it st host he]
    simp [mResolvesTo, he]
  · rcases hf : (sgRes host.hostname).found with _ | _
    · rw [collateStep_groups_notfound sgRes aoRes it st host he hf]
      simp [mResolvesTo, he, hf]
    · rw [collateStep_groups_found sgRes aoRes it st host he hf]
      by_cases hk : (sgRes host.hostname).support_group = k
      · subst hk
        have hres : mResolvesTo sgRes (sgRes host.hostname).support_group host = true := by
          simp [mResolvesTo, he, hf]
        rw [if_pos hres]
        rcases hg : (st.groups.find?
            (fun p => decide (p.1 = (sgRes host.hostname).support_group))).isSome with _ | _
        · rw [if_neg (by simp [hg])]
          rw [mGroupHostnames_update_self _ _ _ _ _ _ _
            (mHasGroup_append_self st.groups (sgRes host.hostname).support_group _)]
          have hg2 : mHasGroup st.groups (sgRes host.hostname).support_group = false := hg
          rw [mGroupHostnames_append_self st.groups _ _ hg2,
            mGroupHostnames_eq_nil_of_not_has st.groups _ hg2]
        · rw [if_pos hg]
          have hg2 : mHasGroup st.groups (sgRes host.hostname).support_group = true := hg
          exact mGroupHostnames_update_self st.groups _ _ _ _ _ _ hg2
      · have hres : mResolvesTo sgRes k host = false := by
          simp [mResolvesTo, hk]
        have hres2 : ¬ mResolvesTo sgRes k host = true := by simp [hres]
        rw [if_neg hres2, List.append_nil]
        have hkne : ¬ k = (sgRes host.hostname).support_group := fun hh => hk hh.symm
        rcases hg : (st.groups.find?
            (fun p => decide (p.1 = (sgRes host.hostname).support_group))).isSome with _ | _
        · rw [if_neg (by simp [hg])]
          rw [mGroupHostnames_update_ne _ _ _ _ _ _ _ _ hkne,
            mGroupHostnames_append_ne _ _ _ _ hkne]
        · rw [if_pos hg]
          exact mGroupHostnames_update_ne _ _ _ _ _ _ _ _ hkne

theorem collateStep_keys_nodup (sgRes : String → MSGInfo)
    (aoRes : Option String → MAOInfo) (it : String) (st : CState) (host : Host)
    (hnd : (st.groups.map Prod.fst).Nodup) :
    ((collateStep sgRes aoRes it st host).groups.map Prod.fst).Nodup := by
  by_cases he : host.hostname = ""
  · rw [collateStep_eq_skip sgRes aoRes it st host he]
    exact hnd
  · rcases hf : (sgRes host.hostname).found with _ | _
    · rw [collateStep_groups_notfound sgRes aoRes it st host he hf]
      exact hnd
    · rw [collateStep_groups_found sgRes aoRes it st host he hf, mKeys_update]
      rcases hg : (st.groups.find?
          (fun p => decide (p.1 = (sgRes host.hostname).support_group))).isSome with _ | _
      · rw [if_neg (by simp [hg])]
        have hnm : (sgRes host.hostname).support_group ∉ st.groups.map Prod.fst := by
          intro hmem
          have hm2 : (st.groups.find?
              (fun p => decide (p.1 = (sgRes host.hostname).support_group))).isSome = true :=
            (mHasGroup_iff_mem_keys st.groups (sgRes host.hostname).support_group).mpr hmem
          rw [hg] at hm2
          exact Bool.false_ne_true hm2
        simp [List.nodup_append, hnd, hnm]
      · rw [if_pos hg]
        exact hnd

theorem collateFold_hostnames_not_found (sgRes : String → MSGInfo)
    (aoRes : Option String → MAOInfo) (it : String) :
    ∀ (hosts : List Host) (st : CState),
      (hosts.foldl (collateStep sgRes aoRes it) st).hostnames_not_found =
        st.hostnames_not_found ++ (hosts.filter (mNotFoundTag sgRes)).map Host.hostname := by
  intro hosts
  induction hosts with
  | nil => intro st; simp
  | cons host hosts ih =>
    intro st
    rw [List.foldl_cons, ih, collateStep_hostnames_not_found]
    rcases ht : mNotFoundTag sgRes host with _ | _ <;> simp [List.filter_cons, ht]

theorem collateFold_mGroupHostnames (sgRes : String → MSGInfo)
    (aoRes : Option String → MAOInfo) (it : String) :
    ∀ (hosts : List Host) (st : CState) (k : Option String),
      mGroupHostnames (hosts.foldl (collateStep sgRes aoRes it) st).groups k =
        mGroupHostnames st.groups k ++
          (hosts.filter (mResolvesTo sgRes k)).map Host.hostname := by
  intro hosts
  induction hosts with
  | nil => intro st k; simp
  | cons host hosts ih =>
    intro st k
    rw [List.foldl_cons, ih, collateStep_mGroupHostnames]
    rcases ht : mResolvesTo sgRes k host with _ | _ <;> simp [List.filter_cons, ht]

theorem collateFold_keys_nodup (sgRes : String → MSGInfo)
    (aoRes : Option String → MAOInfo) (it : String) :
    ∀ (hosts : List Host) (st : CState),
      (st.groups.map Prod.fst).Nodup →
      ((hosts.foldl (collateStep sgRes aoRes it) st).groups.map Prod.fst).Nodup := by
  intro hosts
  induction hosts with
  | nil => intro st hnd; simpa using hnd
  | cons host hosts ih =>
    intro st hnd
    rw [List.foldl_cons]
    exact ih _ (collateStep_keys_nodup sgRes aoRes it st host hnd)

theorem collate_not_found_eq (sgRes : String → MSGInfo) (aoRes : Option String → MAOInfo)
    (p : ParsedTicket) :
    (collate_ticket_results sgRes aoRes (.ok p)).errors.hostnames_not_found =
      (p.hosts.filter (mNotFoundTag sgRes)).map Host.hostname := by
  by_cases hp : p.hosts = []
  · simp [collate_ticket_results, hp]
  · simp only [collate_ticket_results]
    rw [if_neg hp]
    show (p.hosts.foldl (collateStep sgRes aoRes (p.issue_type.getD "unknown"))
        initC).hostnames_not_found = _
    rw [collateFold_hostnames_not_found]
    rfl

theorem collate_mGroupHostnames_eq (sgRes : String → MSGInfo)
    (aoRes : Option String → MAOInfo) (p : ParsedTicket) (k : Option String) :
    mGroupHostnames (collate_ticket_results sgRes aoRes (.ok p)).groups k =
      (p.hosts.filter (mResolvesTo sgRes k)).map Host.hostname := by
  by_cases hp : p.hosts = []
  · simp [collate_ticket_results, hp, mGroupHostnames]
  · simp only [collate_ticket_results]
    rw [if_neg hp]
    show mGroupHostnames (p.hosts.foldl (collateStep sgRes aoRes
        (p.issue_type.getD "unknown")) initC).groups k = _
    rw [collateFold_mGroupHostnames]
    rfl

theorem collate_keys_nodup (sgRes : String → MSGInfo) (aoRes : Option String → MAOInfo)
    (p : ParsedTicket) :
    ((collate_ticket_results sgRes aoRes (.ok p)).groups.map Prod.fst).Nodup := by
  by_cases hp : p.hosts = []
  · simp [collate_ticket_results, hp]
  · simp only [collate_ticket_results]
    rw [if_neg hp]
    show ((p.hosts.foldl (collateStep sgRes aoRes (p.issue_type.getD "unknown"))
        initC).groups.map Prod.fst).Nodup
    exact collateFold_keys_nodup sgRes aoRes _ p.hosts initC (by simp [initC])

theorem mem_collate_not_found_iff (sgRes : String → MSGInfo)
    (aoRes : Option String → MAOInfo) (p : ParsedTicket) (h : String) :
    h ∈ (collate_ticket_results sgRes aoRes (.ok p)).errors.hostnames_not_found ↔
      (h ∈ p.hosts.map Host.hostname ∧ ¬ h = "" ∧ (sgRes h).found = false) := by
  rw [collate_not_found_eq]
  constructor
  · intro hmem
    rcases List.mem_map.mp hmem with ⟨host, hhost, hh⟩
    have hf := List.mem_filter.mp hhost
    have htag : ¬ host.hostname = "" ∧ (sgRes host.hostname).found = false := by
      simpa [mNotFoundTag] using hf.2
    subst hh
    exact ⟨List.mem_map.mpr ⟨host, hf.1, rfl⟩, htag.1, htag.2⟩
  · rintro ⟨hmem, hne, hfound⟩
    rcases List.mem_map.mp hmem with ⟨host, hhost, hh⟩
    subst hh
    refine List.mem_map.mpr ⟨host, List.mem_filter.mpr ⟨hhost, ?_⟩, rfl⟩
    simp [mNotFoundTag, hne, hfound]

theorem mem_collate_group_iff (sgRes : String → MSGInfo)
    (aoRes : Option String → MAOInfo) (p : ParsedTicket) (k : Option String) (h : String) :
    h ∈ mGroupHostnames (collate_ticket_results sgRes aoRes (.ok p)).groups k ↔
      (h ∈ p.hosts.map Host.hostname ∧ ¬ h = "" ∧ (sgRes h).found = true ∧
        (sgRes h).support_group = k) := by
  rw [collate_mGroupHostnames_eq]
  constructor
  · intro hmem
    rcases List.mem_map.mp hmem with ⟨host, hhost, hh⟩
    have hf := List.mem_filter.mp hhost
    have htag : ¬ host.hostname = "" ∧ ((sgRes host.hostname).found = true ∧
        (sgRes host.hostname).support_group = k) := by
      simpa [mResolvesTo] using hf.2
    subst hh
    exact ⟨List.mem_map.mpr ⟨host, hf.1, rfl⟩, htag.1, htag.2.1, htag.2.2⟩
  · rintro ⟨hmem, hne, hfound, hsup⟩
    rcases List.mem_map.mp hmem with ⟨host, hhost, hh⟩
    subst hh
    refine List.mem_map.mpr ⟨host, List.mem_filter.mpr ⟨hhost, ?_⟩, rfl⟩
    simp [mResolvesTo, hne, hfound, hsup]

theorem mem_collate_allGroups_iff (sgRes : String → MSGInfo)
    (aoRes : Option String → MAOInfo) (p : ParsedTicket) (h : String) :
    h ∈ allMGroupHostnames (collate_ticket_results sgRes aoRes (.ok p)).groups ↔
      (h ∈ p.hosts.map Host.hostname ∧ ¬ h = "" ∧ (sgRes h).found = true) := by
  rw [mem_allMGroupHostnames_iff _ (collate_keys_nodup sgRes aoRes p)]
  constructor
  · rintro ⟨k, hk⟩
    have := (mem_collate_group_iff sgRes aoRes p k h).mp hk
    exact ⟨this.1, this.2.1, this.2.2.1⟩
  · rintro ⟨hmem, hne, hfound⟩
    exact ⟨(sgRes h).support_group,
      (mem_collate_group_iff sgRes aoRes p _ h).mpr ⟨hmem, hne, hfound, rfl⟩⟩

/-- C3 (amended): in the grouping stage of `process_tickets` (refactor.py)
the contact resolver is queried exactly once per distinct support group —
the query trace equals the list of group keys, which has no duplicates —
and every group permanently keeps the bundle fetched when it was created.
In `collate_ticket_results` (main.py) this does not hold: `get_app_owners`
is called once per hostname, see the counterexample. -/
theorem C3_group_memoization (f : String → SGResult) (g : Option String → AOResult)
    (hs : List String) :
    (buildGroupsAux f g initG hs).aoTrace =
      (buildGroupsAux f g initG hs).groups.map Prod.fst
    ∧ (buildGroupsAux f g initG hs).aoTrace.Nodup
    ∧ (∀ k d, (k, d) ∈ (buildGroupsAux f g initG hs).groups →
        d.contacts = (if (g k).found then (g k).contacts else none) ∧
        d.contact_lookup_successful = (g k).found) := by
  have hk := buildAux_aoTrace_keys f g hs initG (by simp [initG])
  have hnd := buildAux_keys_nodup f g hs initG (by simp [initG])
  refine ⟨hk, ?_, buildAux_bundle_inv f g hs initG (by simp [initG])⟩
  rw [hk]
  exact hnd

/-- Closed witness for the amended C3: two hostnames resolving to the same
group `NETOPS` produce a single contact query and a group whose stored
bundle is the resolver output. -/
theorem C3_group_memoization_witness :
    (buildGroupsAux
        (fun h => ⟨h, some "NETOPS", true, none⟩)
        (fun _ => ⟨"NETOPS", some ⟨some "NETOPS", some "n@x.com", none, none⟩, true, none⟩)
        initG ["WEB01", "WEB02"]).aoTrace.Nodup ∧
    ((some "NETOPS",
        (⟨["WEB01", "WEB02"], some "NETOPS",
          some ⟨some "NETOPS", some "n@x.com", none, none⟩, true⟩ : GroupData)) ∈
      (buildGroupsAux
        (fun h => ⟨h, some "NETOPS", true, none⟩)
        (fun _ => ⟨"NETOPS", some ⟨some "NETOPS", some "n@x.com", none, none⟩, true, none⟩)
        initG ["WEB01", "WEB02"]).groups →
      (⟨["WEB01", "WEB02"], some "NETOPS",
        some ⟨some "NETOPS", some "n@x.com", none, none⟩, true⟩ : GroupData).contacts =
        some ⟨some "NETOPS", some "n@x.com", none, none⟩) := by
  have h := C3_group_memoization
    (fun h => ⟨h, some "NETOPS", true, none⟩)
    (fun _ => ⟨"NETOPS", some ⟨some "NETOPS", some "n@x.com", none, none⟩, true, none⟩)
    ["WEB01", "WEB02"]
  refine ⟨h.2.1, fun hm => ?_⟩
  have := (h.2.2 _ _ hm).1
  simpa using this

/-! ## Batch deduplication (C2), empty extraction (C4), extraction error (C8) -/

theorem mem_dedupFirst (l : List String) (a : String) : a ∈ dedupFirst l ↔ a ∈ l :=
  mem_dedupFirstFuel l.length l a (le_refl _)

theorem nodup_dedupFirst (l : List String) : (dedupFirst l).Nodup :=
  nodup_dedupFirstFuel l.length l (le_refl _)

theorem dedupFirst_ne_nil (l : List String) (h : l ≠ []) : dedupFirst l ≠ [] := by
  rcases l with _ | ⟨x, xs⟩
  · exact absurd rfl h
  · intro hd
    have hx := (mem_dedupFirst (x :: xs) x).mpr (by simp)
    rw [hd] at hx
    simp at hx

/-- C2 (amended): in the CSV batch pipeline (`process_tickets` with
`is_batch = true`) hostnames are deduplicated globally, first occurrence
first, before any resolution: the support-group query trace is exactly the
deduplicated hostname list, each hostname collected from the files is
queried exactly once, and the total-hostnames count is the number of
distinct hostnames.  In the sheet-based `--batch` loop of main.py this
does not hold: there is no cross-file deduplication, see the
counterexample. -/
theorem C2_batch_global_dedup (f : String → SGResult) (g : Option String → AOResult)
    (files : List (String × ParseResult)) :
    (process_tickets f g files true).sgTrace = dedupFirst (allHostnames files)
    ∧ (dedupFirst (allHostnames files)).Nodup
    ∧ (∀ h, h ∈ allHostnames files →
        (process_tickets f g files true).sgTrace.count h = 1)
    ∧ (allHostnames files ≠ [] →
        (process_tickets f g files true).summary.map (fun s2 => s2.total_hostnames) =
          some (dedupFirst (allHostnames files)).length) := by
  have htrace : (process_tickets f g files true).sgTrace = dedupFirst (allHostnames files) := by
    simp only [process_tickets]
    by_cases hu : dedupFirst (allHostnames files) = []
    · rw [if_pos (by simpa using hu)]
      exact hu.symm
    · rw [if_neg (by simpa using hu)]
      show (buildGroupsAux f g initG (dedupFirst (allHostnames files))).sgTrace = _
      rw [buildAux_sgTrace]
      rfl
  refine ⟨htrace, nodup_dedupFirst _, fun h hmem => ?_, fun hne => ?_⟩
  · rw [htrace]
    have hin : h ∈ dedupFirst (allHostnames files) := (mem_dedupFirst _ h).mpr hmem
    have hle := (List.nodup_iff_count_le_one.mp (nodup_dedupFirst (allHostnames files))) h
    have hpos : 0 < (dedupFirst (allHostnames files)).count h := List.count_pos_iff.mpr hin
    omega
  · have hu : dedupFirst (allHostnames files) ≠ [] := dedupFirst_ne_nil _ hne
    simp only [process_tickets]
    rw [if_neg (by simpa using hu)]
    rfl

def sgOracleW (h : String) : MSGInfo := ⟨some "NETOPS", true, none⟩

def aoOracleW (sg : Option String) : MAOInfo :=
  ⟨some "NETOPS", some "netops@example.com", none, true, none, none⟩

def ticketWeb01 : Except String ParsedTicket := .ok ⟨[⟨"WEB01", none, none⟩], some "reboot"⟩

/-- C2 counterexample: in the main.py `--batch` loop, two ticket files that
each mention `WEB01` lead to two support-group queries for `WEB01` and a
batch total-hostnames count of 2, not the claimed single query and count
of one: main.py has no cross-file deduplication. -/
theorem C2_counterexample :
    (mainBatch sgOracleW aoOracleW [ticketWeb01, ticketWeb01]).sgTrace.count "WEB01" = 2 ∧
    (mainBatch sgOracleW aoOracleW [ticketWeb01, ticketWeb01]).summary.total_hostnames = 2 := by
  decide

/-- Closed witness for the amended C2: two parse results both listing
`WEB01` (and one also `DB02`) produce the deduplicated query trace
`[WEB01, DB02]`, each queried exactly once, and a total of 2. -/
theorem C2_batch_global_dedup_witness :
    (process_tickets (fun h => ⟨h, some "NETOPS", true, none⟩)
        (fun _ => ⟨"NETOPS", none, false, none⟩)
        [("a.txt", ⟨["WEB01", "DB02"], none⟩), ("b.txt", ⟨["WEB01"], none⟩)]
        true).sgTrace.count "WEB01" = 1 ∧
    (process_tickets (fun h => ⟨h, some "NETOPS", true, none⟩)
        (fun _ => ⟨"NETOPS", none, false, none⟩)
        [("a.txt", ⟨["WEB01", "DB02"], none⟩), ("b.txt", ⟨["WEB01"], none⟩)]
        true).summary.map (fun s2 => s2.total_hostnames) = some 2 := by
  have h := C2_batch_global_dedup (fun h => ⟨h, some "NETOPS", true, none⟩)
    (fun _ => ⟨"NETOPS", none, false, none⟩)
    [("a.txt", ⟨["WEB01", "DB02"], none⟩), ("b.txt", ⟨["WEB01"], none⟩)]
  refine ⟨h.2.2.1 "WEB01" (by decide), ?_⟩
  have h4 := h.2.2.2 (by decide)
  rw [h4]
  decide

/-- C4 counterexample: in main.py, when extraction succeeds with an empty
hostname list, `collate_ticket_results` records the explanatory message
under `errors.other_errors`, so the outcome IS recorded in an error list,
contradicting the claim that it is not recorded as an error. -/
theorem C4_counterexample :
    (collate_ticket_results sgOracleW aoOracleW
        (.ok ⟨[], some "reboot"⟩)).errors.other_errors = ["No hostnames found in ticket"] ∧
    (collate_ticket_results sgOracleW aoOracleW
        (.ok ⟨[], some "reboot"⟩)).errors.other_errors ≠ [] := by
  decide

/-- C4 (amended): when extraction succeeds with an empty hostname list, both
pipelines short-circuit with zero counts, an explanatory message, and no
lookups; the CSV pipeline reports status `success` with empty error lists,
while the sheet-based pipeline places the explanatory message under
`errors.other_errors`. -/
theorem C4_empty_extraction (f : String → SGResult) (g : Option String → AOResult)
    (sgm : String → MSGInfo) (aom : Option String → MAOInfo) (p : String)
    (it : Option String) :
    process_tickets f g [(p, ⟨[], none⟩)] false =
      { status := "success",
        message := some "No hostnames found in ticket",
        summary := none,
        results := [],
        hostnames_not_found := [],
        single_error := none,
        file_errors := none,
        files_processed := none,
        sgTrace := [],
        aoTrace := [] }
    ∧ collate_ticket_results sgm aom (.ok ⟨[], it⟩) =
      { summary := ⟨0, 0, 0, 0, none⟩,
        groups := [],
        errors := ⟨[], [], ["No hostnames found in ticket"]⟩,
        sgTrace := [],
        aoTrace := [] } := by
  exact ⟨rfl, rfl⟩

/-- C8 (amended): if the extractor signals an error, both pipelines
short-circuit without any support-group or contact lookups (empty
resolver-call traces).  main.py returns zero counts with the error
recorded under `other_errors`.  refactor.py collects no hostnames from the
errored file and returns the no-hostnames result with no summary counts at
all: in batch mode the parse error is recorded in `file_errors` as
`path: error`, and in single mode the errors mapping is replaced by the
bare error text after the first `": "` of the file error. -/
theorem C8_extraction_error_short_circuit (sgm : String → MSGInfo)
    (aom : Option String → MAOInfo) (f : String → SGResult)
    (g : Option String → AOResult) (e p : String) :
    collate_ticket_results sgm aom (.error e) =
      { summary := ⟨0, 0, 0, 0, none⟩,
        groups := [],
        errors := ⟨[], [], ["Ticket parsing failed: " ++ e]⟩,
        sgTrace := [],
        aoTrace := [] }
    ∧ process_tickets f g [(p, ⟨[], some e⟩)] true =
      { status := "success",
        message := some "No hostnames found in tickets",
        summary := none,
        results := [],
        hostnames_not_found := [],
        single_error := none,
        file_errors := some [p ++ ": " ++ e],
        files_processed := some [p],
        sgTrace := [],
        aoTrace := [] }
    ∧ process_tickets f g [("t.txt", ⟨[], some e⟩)] false =
      { status := "success",
        message := some "No hostnames found in ticket",
        summary := none,
        results := [],
        hostnames_not_found := [],
        single_error := some e,
        file_errors := none,
        files_processed := none,
        sgTrace := [],
        aoTrace := [] } := by
  refine ⟨rfl, rfl, ?_⟩
  have h1 : process_tickets f g [("t.txt", ⟨[], some e⟩)] false =
      { status := "success",
        message := some "No hostnames found in ticket",
        summary := none,
        results := [],
        hostnames_not_found := [],
        single_error := ((fileErrors [("t.txt", ⟨[], some e⟩)]).head?.bind
          (fun s => afterFirstSep (':' :: ' ' :: []) s.data)).map (fun cs => String.mk cs),
        file_errors := none,
        files_processed := none,
        sgTrace := [],
        aoTrace := [] } := rfl
  rw [h1]
  have h2 : ((fileErrors [("t.txt", (⟨[], some e⟩ : ParseResult))]).head?.bind
      (fun s => afterFirstSep (':' :: ' ' :: []) s.data)).map (fun cs => String.mk cs) =
      some e := by
    have hf : fileErrors [("t.txt", (⟨[], some e⟩ : ParseResult))] =
        ["t.txt" ++ ": " ++ e] := rfl
    rw [hf]
    show (afterFirstSep (':' :: ' ' :: [])
        (("t.txt" ++ ": " ++ e).data)).map (fun cs => String.mk cs) = some e
    have hdata : ("t.txt" ++ ": " ++ e).data =
        't' :: '.' :: 't' :: 'x' :: 't' :: ':' :: ' ' :: e.data := by
      simp [String.data_append]
    rw [hdata]
    have hscan : afterFirstSep (':' :: ' ' :: [])
        ('t' :: '.' :: 't' :: 'x' :: 't' :: ':' :: ' ' :: e.data) = some e.data := by
      simp [afterFirstSep, List.isPrefixOf]
    rw [hscan]
    show some (String.mk e.data) = some e
    rcases e with ⟨d⟩
    rfl
  rw [h2]

/-- C8 counterexample: in refactor.py the extractor error is not recorded
under any otherErrors list and the result carries no counts: the
single-file pipeline returns no summary and puts the bare error text in
place of the errors mapping, the batch pipeline records the error in
`file_errors`, and neither performs any lookup. -/
theorem C8_counterexample :
    (process_tickets (fun h2 => ⟨h2, none, false, none⟩) (fun _ => ⟨"", none, false, none⟩)
        [("t.txt", ⟨[], some "boom"⟩)] false).single_error = some "boom" ∧
    (process_tickets (fun h2 => ⟨h2, none, false, none⟩) (fun _ => ⟨"", none, false, none⟩)
        [("t.txt", ⟨[], some "boom"⟩)] false).summary = none ∧
    (process_tickets (fun h2 => ⟨h2, none, false, none⟩) (fun _ => ⟨"", none, false, none⟩)
        [("t.txt", ⟨[], some "boom"⟩)] false).sgTrace = [] ∧
    (process_tickets (fun h2 => ⟨h2, none, false, none⟩) (fun _ => ⟨"", none, false, none⟩)
        [("t.txt", ⟨[], some "boom"⟩)] true).file_errors = some ["t.txt: boom"] := by
  decide

/-- C7 counterexample: in main.py, an extracted empty-hostname candidate is
skipped by the per-hostname loop: with two extracted entries (one empty,
one `WEB01`, both resolvable by the oracle) the empty hostname is counted
in `total_hostnames` but lands neither in `hostnames_not_found` nor in any
group, so the union of the two places is not the full extracted set. -/
theorem C7_counterexample :
    "" ∈ ([⟨"", none, none⟩, ⟨"WEB01", none, none⟩] : List Host).map Host.hostname ∧
    (collate_ticket_results sgOracleW aoOracleW
        (.ok ⟨[⟨"", none, none⟩, ⟨"WEB01", none, none⟩], none⟩)).summary.total_hostnames = 2 ∧
    ¬ "" ∈ (collate_ticket_results sgOracleW aoOracleW
        (.ok ⟨[⟨"", none, none⟩, ⟨"WEB01", none, none⟩], none⟩)).errors.hostnames_not_found ∧
    ¬ "" ∈ allMGroupHostnames (collate_ticket_results sgOracleW aoOracleW
        (.ok ⟨[⟨"", none, none⟩, ⟨"WEB01", none, none⟩], none⟩)).groups := by
  decide

/-- C7 (amended): every extracted hostname ends up in exactly one of the
two places, with the union equal to the extracted set and no overlap — in
refactor.py unconditionally (its extractor never yields empty strings),
and in main.py for every extracted hostname that is a nonempty string,
while an empty hostname candidate is skipped and lands in neither place.
In both pipelines group keys are unique and no hostname appears under two
group keys. -/
theorem C7_partition_both_pipelines (f : String → SGResult) (g : Option String → AOResult)
    (sgm : String → MSGInfo) (aom : Option String → MAOInfo)
    (hs : List String) (p : ParsedTicket) :
    (∀ h, (h ∈ (buildGroupsAux f g initG hs).not_found ∨
           h ∈ allGroupHostnames (buildGroupsAux f g initG hs).groups) ↔ h ∈ hs)
    ∧ (∀ h, ¬ (h ∈ (buildGroupsAux f g initG hs).not_found ∧
           h ∈ allGroupHostnames (buildGroupsAux f g initG hs).groups))
    ∧ ((buildGroupsAux f g initG hs).groups.map Prod.fst).Nodup
    ∧ (∀ k1 k2 h, h ∈ groupHostnames (buildGroupsAux f g initG hs).groups k1 →
        h ∈ groupHostnames (buildGroupsAux f g initG hs).groups k2 → k1 = k2)
    ∧ (∀ h, ¬ h = "" →
        ((h ∈ (collate_ticket_results sgm aom (.ok p)).errors.hostnames_not_found ∨
          h ∈ allMGroupHostnames (collate_ticket_results sgm aom (.ok p)).groups) ↔
          h ∈ p.hosts.map Host.hostname))
    ∧ (∀ h, ¬ (h ∈ (collate_ticket_results sgm aom (.ok p)).errors.hostnames_not_found ∧
          h ∈ allMGroupHostnames (collate_ticket_results sgm aom (.ok p)).groups))
    ∧ ((collate_ticket_results sgm aom (.ok p)).groups.map Prod.fst).Nodup
    ∧ (∀ k1 k2 h, h ∈ mGroupHostnames (collate_ticket_results sgm aom (.ok p)).groups k1 →
        h ∈ mGroupHostnames (collate_ticket_results sgm aom (.ok p)).groups k2 → k1 = k2)
    ∧ (∀ h, h = "" →
        h ∉ (collate_ticket_results sgm aom (.ok p)).errors.hostnames_not_found ∧
        h ∉ allMGroupHostnames (collate_ticket_results sgm aom (.ok p)).groups) := by
  obtain ⟨r1, r2, r3, r4⟩ := refactorGrouping_partition f g hs
  refine ⟨r1, r2, r3, r4, ?_, ?_, collate_keys_nodup sgm aom p, ?_, ?_⟩
  · intro h hne
    rw [mem_collate_not_found_iff, mem_collate_allGroups_iff]
    constructor
    · rintro (⟨hm, _, _⟩ | ⟨hm, _, _⟩) <;> exact hm
    · intro hm
      rcases hfb : (sgm h).found with _ | _
      · exact Or.inl ⟨hm, hne, rfl⟩
      · exact Or.inr ⟨hm, hne, rfl⟩
  · intro h
    rintro ⟨hnf, hall⟩
    have e1 := (mem_collate_not_found_iff sgm aom p h).mp hnf
    have e2 := (mem_collate_allGroups_iff sgm aom p h).mp hall
    rw [e1.2.2] at e2
    exact Bool.false_ne_true e2.2.2
  · intro k1 k2 h h1 h2
    have e1 := (mem_collate_group_iff sgm aom p k1 h).mp h1
    have e2 := (mem_collate_group_iff sgm aom p k2 h).mp h2
    rw [← e1.2.2.2, ← e2.2.2.2]
  · intro h hh
    subst hh
    constructor
    · intro hmem
      exact ((mem_collate_not_found_iff sgm aom p "").mp hmem).2.1 rfl
    · intro hmem
      exact ((mem_collate_allGroups_iff sgm aom p "").mp hmem).2.1 rfl

/-- Closed witness for the amended C7: in the refactor pipeline `GHOST9`
lands in one of the two places and `WEB01` in at most one; in the main.py
collate of a one-host ticket, `WEB01` lands in one of the two places and
the empty string is not in `hostnames_not_found`. -/
theorem C7_partition_both_pipelines_witness :
    ("GHOST9" ∈ (buildGroupsAux
        (fun h => if h = "WEB01" then ⟨h, some "NETOPS", true, none⟩ else ⟨h, none, false, none⟩)
        (fun _ => ⟨"NETOPS", none, false, none⟩) initG ["WEB01", "GHOST9"]).not_found ∨
      "GHOST9" ∈ allGroupHostnames (buildGroupsAux
        (fun h => if h = "WEB01" then ⟨h, some "NETOPS", true, none⟩ else ⟨h, none, false, none⟩)
        (fun _ => ⟨"NETOPS", none, false, none⟩) initG ["WEB01", "GHOST9"]).groups) ∧
    ¬ ("WEB01" ∈ (buildGroupsAux
        (fun h => if h = "WEB01" then ⟨h, some "NETOPS", true, none⟩ else ⟨h, none, false, none⟩)
        (fun _ => ⟨"NETOPS", none, false, none⟩) initG ["WEB01", "GHOST9"]).not_found ∧
      "WEB01" ∈ allGroupHostnames (buildGroupsAux
        (fun h => if h = "WEB01" then ⟨h, some "NETOPS", true, none⟩ else ⟨h, none, false, none⟩)
        (fun _ => ⟨"NETOPS", none, false, none⟩) initG ["WEB01", "GHOST9"]).groups) ∧
    ("WEB01" ∈ (collate_ticket_results sgOracleW aoOracleW
        (.ok ⟨[⟨"WEB01", none, none⟩], none⟩)).errors.hostnames_not_found ∨
      "WEB01" ∈ allMGroupHostnames (collate_ticket_results sgOracleW aoOracleW
        (.ok ⟨[⟨"WEB01", none, none⟩], none⟩)).groups) ∧
    "" ∉ (collate_ticket_results sgOracleW aoOracleW
        (.ok ⟨[⟨"WEB01", none, none⟩], none⟩)).errors.hostnames_not_found := by
  have h := C7_partition_both_pipelines
    (fun h => if h = "WEB01" then ⟨h, some "NETOPS", true, none⟩ else ⟨h, none, false, none⟩)
    (fun _ => ⟨"NETOPS", none, false, none⟩) sgOracleW aoOracleW ["WEB01", "GHOST9"]
    ⟨[⟨"WEB01", none, none⟩], none⟩
  exact ⟨(h.1 "GHOST9").mpr (by decide), h.2.1 "WEB01",
    (h.2.2.2.2.1 "WEB01" (by decide)).mpr (by decide),
    (h.2.2.2.2.2.2.2.2 "" rfl).1⟩

/-! ## Coverage percentage (C9) -/

theorem abs_pyRound_sub_le (x : ℚ) : |(pyRound x : ℚ) - x| ≤ 1 / 2 := by
  have hfl : ((⌊x⌋ : ℤ) : ℚ) ≤ x := Int.floor_le x
  have hfu : x < ((⌊x⌋ : ℤ) : ℚ) + 1 := Int.lt_floor_add_one x
  simp only [pyRound]
  split_ifs with h1 h2 h3
  · rw [abs_le]
    constructor <;> linarith
  · rw [abs_le]
    push_cast
    constructor <;> linarith
  · rw [abs_le]
    constructor <;> linarith
  · rw [abs_le]
    push_cast
    constructor <;> linarith

/-- C9: the coverage percentage is `successful_lookups / total_hostnames *
100` rounded to the nearest integer (distance at most one half, and 7 out
of 10 gives exactly 70), it is 0 when the total is 0 with no division, and
it is exactly the value `collate_ticket_results` and the batch loop store
in their summaries. -/
theorem C9_coverage_percentage (s t : Nat) :
    (t = 0 → coverage s t = 0)
    ∧ (0 < t → |(coverage s t : ℚ) - (s : ℚ) / (t : ℚ) * 100| ≤ 1 / 2)
    ∧ coverage 7 10 = 70
    ∧ (∀ (sgm : String → MSGInfo) (aom : Option String → MAOInfo) (p : ParsedTicket),
        p.hosts ≠ [] →
        (collate_ticket_results sgm aom (.ok p)).summary.coverage_percentage =
          some (coverage
            (collate_ticket_results sgm aom (.ok p)).summary.successful_lookups
            (collate_ticket_results sgm aom (.ok p)).summary.total_hostnames))
    ∧ (∀ (sgm : String → MSGInfo) (aom : Option String → MAOInfo)
          (tickets : List (Except String ParsedTicket)),
        (mainBatch sgm aom tickets).summary.coverage_percentage =
          coverage (mainBatch sgm aom tickets).summary.successful_lookups
            (mainBatch sgm aom tickets).summary.total_hostnames) := by
  refine ⟨fun ht => ?_, fun ht => ?_, ?_, fun sgm aom p hne => ?_, fun sgm aom tickets => ?_⟩
  · simp [coverage, ht]
  · rw [coverage, if_pos ht]
    exact abs_pyRound_sub_le _
  · have hval : ((7 : Nat) : ℚ) / ((10 : Nat) : ℚ) * 100 = ((70 : ℤ) : ℚ) := by norm_num
    rw [coverage, if_pos (by norm_num), hval, pyRound]
    rw [Int.floor_intCast]
    norm_num
  · simp only [collate_ticket_results]
    rw [if_neg hne]
  · rfl

/-- Closed witness for C9 at 0 of 0, 7 of 10, and a concrete one-host
collate run. -/
theorem C9_coverage_percentage_witness :
    coverage 0 0 = 0 ∧
    |(coverage 7 10 : ℚ) - ((7 : Nat) : ℚ) / ((10 : Nat) : ℚ) * 100| ≤ 1 / 2 ∧
    coverage 7 10 = 70 ∧
    (collate_ticket_results sgOracleW aoOracleW
        (.ok ⟨[⟨"WEB01", none, none⟩], none⟩)).summary.coverage_percentage =
      some (coverage
        (collate_ticket_results sgOracleW aoOracleW
          (.ok ⟨[⟨"WEB01", none, none⟩], none⟩)).summary.successful_lookups
        (collate_ticket_results sgOracleW aoOracleW
          (.ok ⟨[⟨"WEB01", none, none⟩], none⟩)).summary.total_hostnames) := by
  have h0 := C9_coverage_percentage 0 0
  have h7 := C9_coverage_percentage 7 10
  refine ⟨h0.1 rfl, h7.2.1 (by norm_num), h7.2.2.1, ?_⟩
  exact h7.2.2.2.1 sgOracleW aoOracleW ⟨[⟨"WEB01", none, none⟩], none⟩ (by decide)

/-- C3 counterexample: in main.py, `collate_ticket_results` calls
`get_app_owners` once per hostname, not once per distinct support group:
two hostnames both resolving to `NETOPS` produce a contact-query trace
with two entries for `NETOPS`, contradicting the at-most-once claim. -/
theorem C3_counterexample :
    (collate_ticket_results sgOracleW aoOracleW
        (.ok ⟨[⟨"WEB01", none, none⟩, ⟨"WEB02", none, none⟩], some "reboot"⟩)).aoTrace =
      [some "NETOPS", some "NETOPS"] ∧
    (collate_ticket_results sgOracleW aoOracleW
        (.ok ⟨[⟨"WEB01", none, none⟩, ⟨"WEB02", none, none⟩],
          some "reboot"⟩)).aoTrace.count (some "NETOPS") = 2 := by
  decide

end Collate
